import Mathlib

/-!
# Recorder pipeline driver (`skia/recorder/src/main.cpp`)

A shallow embedding of the part of `main` that starts after the animation
source has been loaded (line 197 onwards): stream setup, the per-frame
render / convert / submit / drain loop, the end-of-stream flush loop and the
trailer / close sequence.

The codec, container and raster libraries are external collaborators.  They
are represented by a record `Lib σ` of transition functions over an arbitrary
world state `σ`: every call the driver makes is one transition, returning the
value the driver reads.  The driver itself is a function that threads the
world state through these calls exactly in source order and records each call
(with the value it returned) in a trace of `Event`s.

C `int` values are `Int`; the one place where `int` arithmetic can overflow
(the timestamp expression) wraps to 32 bits explicitly, and its division has
no value where the machine division traps.
-/

namespace Recorder

/-! ## Integer arithmetic of the timestamp expression -/

/-- Two's-complement reduction of an integer to the range of a 32-bit `int`:
the value an `int` expression has on the usual targets when the mathematical
result leaves the range (the language itself leaves that case undefined). -/
def wrapInt32 (x : Int) : Int := (x + 2 ^ 31) % 2 ^ 32 - 2 ^ 31

/-- The expression `i * time_base.den / (time_base.num * fps)` of lines 452-453.
All four operands are `int`, so both products and the quotient are computed in
32-bit `int` arithmetic; `/` truncates toward zero.  The division traps (the
process is killed by an arithmetic exception) when the divisor is zero and
when the least `int` is divided by -1: there the expression has no value,
`none`.  In every other case the quotient is in the range of `int`. -/
def pts (i den num fps : Int) : Option Int :=
  if wrapInt32 (num * fps) = 0 then none
  else if wrapInt32 (i * den) = -2 ^ 31 ∧ wrapInt32 (num * fps) = -1 then none
  else some (Int.tdiv (wrapInt32 (i * den)) (wrapInt32 (num * fps)))


/-! ## Data model -/

/-- The rational `AVRational` (stream time base). -/
structure AVRational where
  num : Int
  den : Int
deriving DecidableEq

/-- The part of `AVOutputFormat` the driver reads: its `flags` bit set. -/
structure AVOutputFormat where
  flags : Nat
deriving DecidableEq

/-- The part of `AVPacket` that matters here: timestamp and the `flags` bit set
(the bit pattern of the C `int flags`). -/
structure AVPacket where
  pts : Int
  flags : Nat
deriving DecidableEq

/-- What the driver takes from the loaded animation and artboard
(lines 277-279 and 390): `animation->fps()`, `(int)artboard->width()`,
`(int)artboard->height()`, `animation->duration()`. -/
structure Input where
  fps : Int
  width : Int
  height : Int
  duration : Int
deriving DecidableEq

/-- One call of the driver into a collaborator, with the value it returned. -/
inductive Event where
  | guessFormat (found : Bool)
  | allocOutputContext (ret : Int)
  | findEncoder (found : Bool)
  | newStream (ok : Bool)
  | allocContext (ok : Bool)
  | openCodec (ret : Int)
  | avioOpen (ret : Int)
  | writeHeader (ret : Int)
  | frameGetBuffer (ret : Int)
  | swsGetContext (ok : Bool)
  | draw (i : Int)
  | snapshot (ok : Bool)
  | peekPixels (ok : Bool)
  | swsScale (ctx : Bool) (ret : Int)
  | sendFrame (pts : Option Int) (ret : Int)
  | receivePacket (ret : Int) (pkt : AVPacket)
  | writeFrame (pkt : AVPacket) (ret : Int)
  | writeTrailer (ret : Int)
  | avioClose (ret : Int)
deriving DecidableEq

/-- The external collaborators as transitions on a world state `σ`.  Pointer
results are `Bool` (non-null) or `Option`; `int` results are `Int`.  The two
header constants the driver uses are fields, since their headers are not part
of the repository.  `avformat_write_header` receives the stream time base the
driver has set and returns, next to its code, the time base the stream has
afterwards (a muxer may replace it); that is the value line 453 reads.  Calls whose result the driver never reads and that no
event records (parameter copies, `av_opt_set`, `av_dump_format`,
`av_init_packet`, `av_packet_unref`, `av_frame_alloc`, surface creation) are
part of the neighbouring transition. -/
structure Lib (σ : Type) where
  AVFMT_NOFILE : Nat
  AV_PKT_FLAG_KEY : Nat
  av_guess_format : σ → Option AVOutputFormat × σ
  avformat_alloc_output_context2 : σ → Int × σ
  avcodec_find_encoder : σ → Bool × σ
  avformat_new_stream : σ → Bool × σ
  avcodec_alloc_context3 : σ → Bool × σ
  avcodec_open2 : σ → Int × σ
  avio_open : σ → Int × σ
  avformat_write_header : AVRational → σ → (Int × AVRational) × σ
  av_frame_get_buffer : Int → Int → σ → Int × σ
  sws_getContext : Int → Int → σ → Bool × σ
  drawFrame : Int → σ → σ
  makeImageSnapshot : σ → Bool × σ
  peekPixels : σ → Bool × σ
  sws_scale : Bool → σ → Int × σ
  avcodec_send_frame : Option Int → σ → Int × σ
  avcodec_receive_packet : σ → (Int × AVPacket) × σ
  av_interleaved_write_frame : AVPacket → σ → Int × σ
  av_write_trailer : σ → Int × σ
  avio_close : σ → Int × σ

/-- What a successful setup hands to the loops: the output format, the stream
time base as it stands after the header was written, the rescale context
(non-null or not) and the frame rate. -/
structure Ready where
  oformat : AVOutputFormat
  time_base : AVRational
  swsCtx : Bool
  fps : Int
deriving DecidableEq

/-- Result of the setup phase: `return 1`, or ready to run the loops. -/
inductive SetupResult (σ : Type) where
  | failed (status : Int)
  | ready (r : Ready) (s : σ)
deriving DecidableEq

/-- Result of a loop: `return status` from inside it, the process killed by the
trap of the timestamp division, or fall through. -/
inductive Flow (σ : Type) where
  | returned (status : Int)
  | trapped
  | next (s : σ)
deriving DecidableEq

/-- How a run ends: `main` returns a status, or the process is killed by the
trap of the timestamp division. -/
inductive Exit where
  | status (code : Int)
  | trapped
deriving DecidableEq

/-! ## The driver -/

/-- Does the format lack the no-file flag, `!(oformat->flags & AVFMT_NOFILE)`? -/
def ownsSink {σ : Type} (L : Lib σ) (oformat : AVOutputFormat) : Bool :=
  oformat.flags &&& L.AVFMT_NOFILE == 0

/-- Lines 334-386, the rest of the setup once the sink is in place: header,
frame buffer, rescale context.  `sws_getContext` is called and its result
stored without a test, as in the source. -/
def setupFinish {σ : Type} (L : Lib σ) (inp : Input) (oformat : AVOutputFormat) (s : σ) :
    List Event × SetupResult σ :=
  let h := L.avformat_write_header ⟨1, inp.fps⟩ s
  let t1 := [Event.writeHeader h.1.1]
  if h.1.1 < 0 then (t1, .failed 1) else
  let b := L.av_frame_get_buffer inp.width inp.height h.2
  let t2 := t1 ++ [.frameGetBuffer b.1]
  if b.1 < 0 then (t2, .failed 1) else
  let w := L.sws_getContext inp.width inp.height b.2
  (t2 ++ [.swsGetContext w.1], .ready ⟨oformat, h.1.2, w.1, inp.fps⟩ w.2)

/-- Lines 317-332, then the rest of the setup: the sink is opened only when
the format lacks the no-file flag. -/
def setupSink {σ : Type} (L : Lib σ) (inp : Input) (oformat : AVOutputFormat) (s : σ) :
    List Event × SetupResult σ :=
  if ownsSink L oformat then
    let r := L.avio_open s
    if r.1 < 0 then ([.avioOpen r.1], .failed 1) else
    (Event.avioOpen r.1 :: (setupFinish L inp oformat r.2).1, (setupFinish L inp oformat r.2).2)
  else setupFinish L inp oformat s

/-- Lines 204-386: every setup step in source order, each checked step
returning 1 on failure. -/
def setup {σ : Type} (L : Lib σ) (inp : Input) (s0 : σ) : List Event × SetupResult σ :=
  let g := L.av_guess_format s0
  match g.1 with
  | none => ([.guessFormat false], .failed 1)
  | some oformat =>
    let t1 := [Event.guessFormat true]
    let a := L.avformat_alloc_output_context2 g.2
    let t2 := t1 ++ [.allocOutputContext a.1]
    if a.1 < 0 then (t2, .failed 1) else
    let e := L.avcodec_find_encoder a.2
    let t3 := t2 ++ [.findEncoder e.1]
    if e.1 = false then (t3, .failed 1) else
    let n := L.avformat_new_stream e.2
    let t4 := t3 ++ [.newStream n.1]
    if n.1 = false then (t4, .failed 1) else
    let c := L.avcodec_alloc_context3 n.2
    let t5 := t4 ++ [.allocContext c.1]
    if c.1 = false then (t5, .failed 1) else
    let o := L.avcodec_open2 c.2
    let t6 := t5 ++ [.openCodec o.1]
    if o.1 < 0 then (t6, .failed 1) else
    (t6 ++ (setupSink L inp oformat o.2).1, (setupSink L inp oformat o.2).2)

/-- Lines 454-471 of the loop body: submit the frame with timestamp `p`, drain
once, and write the drained packet with the keyframe flag set. -/
def encodeFrame {σ : Type} (L : Lib σ) (p : Int) (s : σ) : List Event × Flow σ :=
  let snd := L.avcodec_send_frame (some p) s
  let t4 := [Event.sendFrame (some p) snd.1]
  if snd.1 < 0 then (t4, .returned 1) else
  let rcv := L.avcodec_receive_packet snd.2
  let t5 := t4 ++ [.receivePacket rcv.1.1 rcv.1.2]
  if rcv.1.1 = 0 then
    let pkt : AVPacket := ⟨rcv.1.2.pts, rcv.1.2.flags ||| L.AV_PKT_FLAG_KEY⟩
    let wr := L.av_interleaved_write_frame pkt rcv.2
    (t5 ++ [.writeFrame pkt wr.1], .next wr.2)
  else (t5, .next rcv.2)

/-- One iteration of the main loop, lines 394-473, for frame index `i`: draw,
read back, convert, compute the timestamp (lines 452-453, where the process
dies if the division traps), then submit and drain. -/
def frameBody {σ : Type} (L : Lib σ) (r : Ready) (i : Int) (s : σ) : List Event × Flow σ :=
  let img := L.makeImageSnapshot (L.drawFrame i s)
  let t1 := [Event.draw i, .snapshot img.1]
  if img.1 = false then (t1, .returned 1) else
  let px := L.peekPixels img.2
  let t2 := t1 ++ [.peekPixels px.1]
  if px.1 = false then (t2, .returned 1) else
  let sc := L.sws_scale r.swsCtx px.2
  let t3 := t2 ++ [.swsScale r.swsCtx sc.1]
  match pts i r.time_base.den r.time_base.num r.fps with
  | none => (t3, .trapped)
  | some p => (t3 ++ (encodeFrame L p sc.2).1, (encodeFrame L p sc.2).2)

/-- The loop `for (int i = 0; i < totalFrames; i++)` of line 392, started at
index `i` with `k` iterations of budget.  The driver calls it with
`k = totalFrames.toNat` and `i = 0`, which is exactly the number of times the
guard can hold, so the budget never cuts the loop short. -/
def mainLoopFrom {σ : Type} (L : Lib σ) (r : Ready) (totalFrames : Int) :
    Nat → Int → σ → List Event × Flow σ
  | 0, _, s => ([], .next s)
  | k + 1, i, s =>
    if i < totalFrames then
      match (frameBody L r i s).2 with
      | .returned st => ((frameBody L r i s).1, .returned st)
      | .trapped => ((frameBody L r i s).1, .trapped)
      | .next s1 =>
        ((frameBody L r i s).1 ++ (mainLoopFrom L r totalFrames k (i + 1) s1).1,
          (mainLoopFrom L r totalFrames k (i + 1) s1).2)
    else ([], .next s)

/-- The main loop, lines 390-474. -/
def mainLoop {σ : Type} (L : Lib σ) (r : Ready) (totalFrames : Int) (s : σ) :
    List Event × Flow σ :=
  mainLoopFrom L r totalFrames totalFrames.toNat 0 s

/-- The flush loop `for (;;)` of lines 483-497.  It has no bound of its own,
so it runs on `fuel`; `none` means it is still looping when the fuel is
spent. -/
def flushLoop {σ : Type} (L : Lib σ) : Nat → σ → List Event × Option σ
  | 0, _ => ([], none)
  | fuel + 1, s =>
    let snd := L.avcodec_send_frame none s
    let rcv := L.avcodec_receive_packet snd.2
    if rcv.1.1 = 0 then
      let wr := L.av_interleaved_write_frame rcv.1.2 rcv.2
      (Event.sendFrame none snd.1 :: .receivePacket rcv.1.1 rcv.1.2 :: .writeFrame rcv.1.2 wr.1 ::
          (flushLoop L fuel wr.2).1,
        (flushLoop L fuel wr.2).2)
    else ([.sendFrame none snd.1, .receivePacket rcv.1.1 rcv.1.2], some rcv.2)

/-- Lines 500-511: write the trailer, then close the sink if the driver opened
it; the status is 1 only when the close fails. -/
def shutdown {σ : Type} (L : Lib σ) (oformat : AVOutputFormat) (s : σ) : List Event × Int :=
  let tr := L.av_write_trailer s
  if ownsSink L oformat then
    let cl := L.avio_close tr.2
    ([.writeTrailer tr.1, .avioClose cl.1], if cl.1 < 0 then 1 else 0)
  else ([.writeTrailer tr.1], 0)

/-- The driver from line 197 to the end of `main`: the trace of calls and how
the run ends (`none` when the flush loop has not ended within `fuel`). -/
def main {σ : Type} (L : Lib σ) (inp : Input) (fuel : Nat) (s0 : σ) : List Event × Option Exit :=
  match (setup L inp s0).2 with
  | .failed st => ((setup L inp s0).1, some (.status st))
  | .ready r s1 =>
    match (mainLoop L r inp.duration s1).2 with
    | .returned st =>
      ((setup L inp s0).1 ++ (mainLoop L r inp.duration s1).1, some (.status st))
    | .trapped => ((setup L inp s0).1 ++ (mainLoop L r inp.duration s1).1, some .trapped)
    | .next s2 =>
      match (flushLoop L fuel s2).2 with
      | none =>
        ((setup L inp s0).1 ++ (mainLoop L r inp.duration s1).1 ++ (flushLoop L fuel s2).1, none)
      | some s3 =>
        ((setup L inp s0).1 ++ (mainLoop L r inp.duration s1).1 ++ (flushLoop L fuel s2).1 ++
            (shutdown L r.oformat s3).1,
          some (.status (shutdown L r.oformat s3).2))

/-- The calls of a run before its shutdown phase: those of the setup, of the
main loop and of the flush loop. -/
def beforeShutdown {σ : Type} (L : Lib σ) (inp : Input) (fuel : Nat) (s0 : σ) (r : Ready)
    (s1 s2 : σ) : List Event :=
  (setup L inp s0).1 ++ (mainLoop L r inp.duration s1).1 ++ (flushLoop L fuel s2).1

/-! ## Classification of events -/

/-- Events of producing a frame: drawing, reading back, converting, submitting. -/
def Event.isFrameWork : Event → Bool
  | .draw _ => true
  | .snapshot _ => true
  | .peekPixels _ => true
  | .swsScale _ _ => true
  | .sendFrame (some _) _ => true
  | _ => false

/-- A frame handed to the encoder (not the end-of-stream marker). -/
def Event.isSubmit : Event → Bool
  | .sendFrame (some _) _ => true
  | _ => false

/-- The end-of-stream marker handed to the encoder. -/
def Event.isEndOfStream : Event → Bool
  | .sendFrame none _ => true
  | _ => false

/-- A drain call. -/
def Event.isDrain : Event → Bool
  | .receivePacket _ _ => true
  | _ => false

/-- A packet handed to the muxer. -/
def Event.isWrite : Event → Bool
  | .writeFrame _ _ => true
  | _ => false

/-- The trailer being written. -/
def Event.isTrailer : Event → Bool
  | .writeTrailer _ => true
  | _ => false

/-- The sink being opened by the driver. -/
def Event.isOpen : Event → Bool
  | .avioOpen _ => true
  | _ => false

/-- The sink being closed by the driver. -/
def Event.isClose : Event → Bool
  | .avioClose _ => true
  | _ => false

/-- A stage of the main loop whose failure the driver tests: the read-back of
the surface (`makeImageSnapshot`, `peekPixels`) or the submit. -/
def Event.isCheckedFailure : Event → Bool
  | .snapshot ok => !ok
  | .peekPixels ok => !ok
  | .sendFrame (some _) ret => decide (ret < 0)
  | _ => false

/-- Calls made by the setup phase. -/
def Event.isSetupCall : Event → Bool
  | .guessFormat _ => true
  | .allocOutputContext _ => true
  | .findEncoder _ => true
  | .newStream _ => true
  | .allocContext _ => true
  | .openCodec _ => true
  | .avioOpen _ => true
  | .writeHeader _ => true
  | .frameGetBuffer _ => true
  | .swsGetContext _ => true
  | _ => false

/-- Calls made by the main loop. -/
def Event.isLoopCall : Event → Bool
  | .draw _ => true
  | .snapshot _ => true
  | .peekPixels _ => true
  | .swsScale _ _ => true
  | .sendFrame (some _) _ => true
  | .receivePacket _ _ => true
  | .writeFrame _ _ => true
  | _ => false

/-- Calls made by the flush loop. -/
def Event.isFlushCall : Event → Bool
  | .sendFrame none _ => true
  | .receivePacket _ _ => true
  | .writeFrame _ _ => true
  | _ => false

/-- The frame index of a draw call. -/
def Event.drawn : Event → Option Int
  | .draw i => some i
  | _ => none

/-- The timestamp of a frame handed to the encoder. -/
def Event.submitted : Event → Option Int
  | .sendFrame (some p) _ => some p
  | _ => none

/-- Frame indices drawn, in trace order. -/
def drawnFrames (t : List Event) : List Int := t.filterMap Event.drawn

/-- Timestamps of the frames submitted, in trace order. -/
def submittedPts (t : List Event) : List Int := t.filterMap Event.submitted

/-- Is every successful drain in the trace (code 0) immediately followed by the
write of the packet it returned? -/
def drainsWritten : List Event → Bool
  | [] => true
  | .receivePacket rc q :: t =>
    (decide (rc ≠ 0) ||
      match t with
      | .writeFrame p _ :: _ => decide (p = q)
      | _ => false) && drainsWritten t
  | _ :: t => drainsWritten t

/-- The encoder-facing part of a trace: submits, drains and muxer writes. -/
def encoderCalls (t : List Event) : List Event :=
  t.filter (fun e => e.isSubmit || e.isDrain || e.isWrite)

/-! ## A simulated world

A small deterministic collaborator used to run the driver on concrete inputs:
an encoder that turns every accepted frame into `burst` packets, holds back
`lag` of them until the end-of-stream marker arrives, and a muxer and sink
that return fixed codes. -/

/-- Behaviour of the simulated collaborators. -/
structure SimCfg where
  format : Option AVOutputFormat
  swsOk : Bool
  muxTimeBase : Option AVRational
  burst : Nat
  lag : Nat
  snapshotFailsAt : Option Int
  sendFailsAt : Option Int
  writeRet : Int
  closeRet : Int

/-- State of the simulated world: the frame last drawn, the encoder's queue,
and whether the end-of-stream marker has been seen. -/
structure Sim where
  current : Int
  queue : List AVPacket
  eos : Bool
deriving DecidableEq

/-- The simulated collaborators.  `AVFMT_NOFILE` and `AV_PKT_FLAG_KEY` are
both bit 0, their values in the libav headers. -/
def simLib (cfg : SimCfg) : Lib Sim where
  AVFMT_NOFILE := 1
  AV_PKT_FLAG_KEY := 1
  av_guess_format := fun s => (cfg.format, s)
  avformat_alloc_output_context2 := fun s => (0, s)
  avcodec_find_encoder := fun s => (true, s)
  avformat_new_stream := fun s => (true, s)
  avcodec_alloc_context3 := fun s => (true, s)
  avcodec_open2 := fun s => (0, s)
  avio_open := fun s => (0, s)
  avformat_write_header := fun tb s =>
    match cfg.muxTimeBase with
    | some tb1 => ((0, tb1), s)
    | none => ((0, tb), s)
  av_frame_get_buffer := fun _ _ s => (0, s)
  sws_getContext := fun _ _ s => (cfg.swsOk, s)
  drawFrame := fun i s => ⟨i, s.queue, s.eos⟩
  makeImageSnapshot := fun s => (decide (cfg.snapshotFailsAt ≠ some s.current), s)
  peekPixels := fun s => (true, s)
  sws_scale := fun ctx s => (if ctx then 0 else -1, s)
  avcodec_send_frame := fun f s =>
    match f with
    | some p =>
      if cfg.sendFailsAt = some s.current then (-22, s)
      else (0, ⟨s.current, s.queue ++ List.replicate cfg.burst ⟨p, 0⟩, s.eos⟩)
    | none => (0, ⟨s.current, s.queue, true⟩)
  avcodec_receive_packet := fun s =>
    match s.queue with
    | [] => ((-11, ⟨0, 0⟩), s)
    | p :: rest =>
      if s.eos || decide (cfg.lag < s.queue.length) then ((0, p), ⟨s.current, rest, s.eos⟩)
      else ((-11, ⟨0, 0⟩), s)
  av_interleaved_write_frame := fun _ s => (cfg.writeRet, s)
  av_write_trailer := fun s => (0, s)
  avio_close := fun s => (cfg.closeRet, s)

/-- A file-backed format, one packet per frame, no delay, no failure. -/
def plainCfg : SimCfg := ⟨some ⟨0⟩, true, none, 1, 0, none, none, 0, 0⟩

/-- As `plainCfg`, but the encoder makes two packets ready per frame. -/
def burstCfg : SimCfg := ⟨some ⟨0⟩, true, none, 2, 0, none, none, 0, 0⟩

/-- As `plainCfg`, but the encoder holds two packets back until end of stream. -/
def lagCfg : SimCfg := ⟨some ⟨0⟩, true, none, 1, 2, none, none, 0, 0⟩

/-- As `plainCfg`, but `sws_getContext` returns null. -/
def noSwsCfg : SimCfg := ⟨some ⟨0⟩, false, none, 1, 0, none, none, 0, 0⟩

/-- As `plainCfg`, but every `av_interleaved_write_frame` returns -1. -/
def writeFailCfg : SimCfg := ⟨some ⟨0⟩, true, none, 1, 0, none, none, -1, 0⟩

/-- As `plainCfg`, but `avcodec_send_frame` rejects frame 1. -/
def sendFailCfg : SimCfg := ⟨some ⟨0⟩, true, none, 1, 0, none, some 1, 0, 0⟩

/-- As `plainCfg`, but the format carries the no-file flag. -/
def nofileCfg : SimCfg := ⟨some ⟨1⟩, true, none, 1, 0, none, none, 0, 0⟩

/-- What the simulated setup hands to the loops at 30 frames per second. -/
def ready30 : Ready := ⟨⟨0⟩, ⟨1, 30⟩, true, 30⟩

/-- The world before the first call. -/
def sim0 : Sim := ⟨0, [], false⟩

/-- Number of packets the simulated encoder holds. -/
def simHeld (s : Sim) : Nat := s.queue.length

/-! ## Properties of collaborators used as hypotheses -/

/-- The encoder yields one packet per end-of-stream drain until it is empty:
`held` counts the packets it holds; a drain after the end-of-stream marker
reports "none" when `held` is 0, and otherwise returns a packet, after whose
write one packet fewer is held. -/
structure YieldsOnePerDrain {σ : Type} (L : Lib σ) (held : σ → Nat) : Prop where
  empty : ∀ s, held s = 0 →
    (L.avcodec_receive_packet (L.avcodec_send_frame none s).2).1.1 ≠ 0
  step : ∀ s, 0 < held s →
    (L.avcodec_receive_packet (L.avcodec_send_frame none s).2).1.1 = 0 ∧
    held (L.av_interleaved_write_frame
        (L.avcodec_receive_packet (L.avcodec_send_frame none s).2).1.2
        (L.avcodec_receive_packet (L.avcodec_send_frame none s).2).2).2 + 1 = held s

end Recorder

namespace Recorder

theorem wrapInt32_of_range {x : Int} (h0 : 0 ≤ x) (h1 : x < 2 ^ 31) : wrapInt32 x = x := by
  unfold wrapInt32
  omega

theorem pts_of_range {i den num fps : Int} (hi : 0 ≤ i) (hden : 0 ≤ den)
    (hnf : 0 < num * fps) (h1 : i * den < 2 ^ 31) (h2 : num * fps < 2 ^ 31) :
    pts i den num fps = some ((i * den) / (num * fps)) := by
  have hid : 0 ≤ i * den := Int.mul_nonneg hi hden
  unfold pts
  rw [wrapInt32_of_range hid h1, wrapInt32_of_range (le_of_lt hnf) h2]
  rw [if_neg (ne_of_gt hnf), if_neg (fun h => by omega), Int.tdiv_eq_ediv hid (le_of_lt hnf)]

theorem pts_defined_of_divisor {i den num fps : Int} (h0 : wrapInt32 (num * fps) ≠ 0)
    (h1 : wrapInt32 (num * fps) ≠ -1) : (pts i den num fps).isSome = true := by
  unfold pts
  rw [if_neg h0, if_neg (fun h => h1 h.2)]
  rfl

/-! ## The setup phase -/

theorem setupFinish_calls {σ : Type} (L : Lib σ) (inp : Input) (o : AVOutputFormat) (s : σ) :
    ∀ e ∈ (setupFinish L inp o s).1, e.isSetupCall = true ∧ e.isOpen = false := by
  intro e he
  unfold setupFinish at he
  simp only [] at he
  split_ifs at he <;> simp at he <;> rcases he with rfl | rfl | rfl <;>
    simp [Event.isSetupCall, Event.isOpen]

theorem setupFinish_status {σ : Type} (L : Lib σ) (inp : Input) (o : AVOutputFormat) (s : σ)
    (st : Int) (h : (setupFinish L inp o s).2 = .failed st) : st = 1 := by
  unfold setupFinish at h
  simp only [] at h
  split_ifs at h <;> simp at h <;> omega

theorem setupFinish_oformat {σ : Type} (L : Lib σ) (inp : Input) (o : AVOutputFormat) (s : σ)
    (r : Ready) (s1 : σ) (h : (setupFinish L inp o s).2 = .ready r s1) :
    r.oformat = o ∧ r.fps = inp.fps := by
  unfold setupFinish at h
  simp only [] at h
  split_ifs at h
  simp at h
  rcases h with ⟨rfl, _⟩
  exact ⟨rfl, rfl⟩

theorem setupSink_calls {σ : Type} (L : Lib σ) (inp : Input) (o : AVOutputFormat) (s : σ) :
    ∀ e ∈ (setupSink L inp o s).1, e.isSetupCall = true := by
  intro e he
  unfold setupSink at he
  simp only [] at he
  split_ifs at he
  · simp at he
    subst he
    rfl
  · simp at he
    rcases he with rfl | he
    · rfl
    · exact (setupFinish_calls L inp o _ e he).1
  · exact (setupFinish_calls L inp o _ e he).1

theorem setupSink_open {σ : Type} (L : Lib σ) (inp : Input) (o : AVOutputFormat) (s : σ)
    (e : Event) (he : e ∈ (setupSink L inp o s).1) (ho : e.isOpen = true) :
    ownsSink L o = true := by
  unfold setupSink at he
  simp only [] at he
  split_ifs at he with h1 h2
  · exact h1
  · exact h1
  · have := (setupFinish_calls L inp o _ e he).2
    simp [this] at ho

theorem setupSink_status {σ : Type} (L : Lib σ) (inp : Input) (o : AVOutputFormat) (s : σ)
    (st : Int) (h : (setupSink L inp o s).2 = .failed st) : st = 1 := by
  unfold setupSink at h
  simp only [] at h
  split_ifs at h
  · simp at h
    omega
  · exact setupFinish_status L inp o _ st h
  · exact setupFinish_status L inp o _ st h

theorem setupSink_ready {σ : Type} (L : Lib σ) (inp : Input) (o : AVOutputFormat) (s : σ)
    (r : Ready) (s1 : σ) (h : (setupSink L inp o s).2 = .ready r s1) :
    r.oformat = o ∧ r.fps = inp.fps ∧
      (ownsSink L o = true → ∃ e ∈ (setupSink L inp o s).1, e.isOpen = true) := by
  by_cases h1 : ownsSink L o = true
  · by_cases h2 : (L.avio_open s).1 < 0
    · simp [setupSink, h1, h2] at h
    · simp only [setupSink, h1, h2, if_true, if_false] at h ⊢
      have := setupFinish_oformat L inp o _ r s1 h
      exact ⟨this.1, this.2, fun _ => ⟨_, List.mem_cons_self _ _, rfl⟩⟩
  · simp only [setupSink, h1, if_false] at h ⊢
    have := setupFinish_oformat L inp o _ r s1 h
    exact ⟨this.1, this.2, fun hc => by simp at hc⟩

theorem setup_calls {σ : Type} (L : Lib σ) (inp : Input) (s0 : σ) :
    ∀ e ∈ (setup L inp s0).1, e.isSetupCall = true := by
  intro e he
  unfold setup at he
  simp only [] at he
  split at he
  · simp at he
    subst he
    rfl
  · split_ifs at he
    all_goals simp at he
    all_goals
      first
      | (rcases he with rfl | rfl | rfl | rfl | rfl | rfl | he
         · rfl
         · rfl
         · rfl
         · rfl
         · rfl
         · rfl
         · exact setupSink_calls L inp _ _ e he)
      | (rcases he with rfl | rfl | rfl | rfl | rfl | rfl <;> rfl)

theorem setup_status {σ : Type} (L : Lib σ) (inp : Input) (s0 : σ) (st : Int)
    (h : (setup L inp s0).2 = .failed st) : st = 1 := by
  unfold setup at h
  simp only [] at h
  split at h
  · simp at h
    omega
  · split_ifs at h
    all_goals first
      | exact setupSink_status L inp _ _ st h
      | (simp at h; omega)

theorem setup_open {σ : Type} (L : Lib σ) (inp : Input) (s0 : σ)
    (e : Event) (he : e ∈ (setup L inp s0).1) (ho : e.isOpen = true) :
    ∃ o, (L.av_guess_format s0).1 = some o ∧ ownsSink L o = true := by
  unfold setup at he
  simp only [] at he
  split at he
  · simp at he
    subst he
    simp [Event.isOpen] at ho
  · rename_i o hg
    refine ⟨o, hg, ?_⟩
    split_ifs at he
    all_goals simp at he
    all_goals
      first
      | (rcases he with rfl | rfl | rfl | rfl | rfl | rfl | he
         · simp [Event.isOpen] at ho
         · simp [Event.isOpen] at ho
         · simp [Event.isOpen] at ho
         · simp [Event.isOpen] at ho
         · simp [Event.isOpen] at ho
         · simp [Event.isOpen] at ho
         · exact setupSink_open L inp _ _ e he ho)
      | (rcases he with rfl | rfl | rfl | rfl | rfl | rfl <;> simp [Event.isOpen] at ho)

theorem setup_ready {σ : Type} (L : Lib σ) (inp : Input) (s0 : σ)
    (r : Ready) (s1 : σ) (h : (setup L inp s0).2 = .ready r s1) :
    (L.av_guess_format s0).1 = some r.oformat ∧ r.fps = inp.fps ∧
      (ownsSink L r.oformat = true → ∃ e ∈ (setup L inp s0).1, e.isOpen = true) := by
  unfold setup at h ⊢
  simp only [] at h ⊢
  cases hg : (L.av_guess_format s0).1 with
  | none => simp [hg] at h
  | some o =>
    simp only [hg] at h
    try simp only [hg]
    split_ifs at h ⊢
    all_goals try simp at h
    have hs := setupSink_ready L inp o _ r s1 h
    refine ⟨by rw [hs.1], hs.2.1, ?_⟩
    intro hc
    rw [hs.1] at hc
    obtain ⟨e, he, ho⟩ := hs.2.2 hc
    exact ⟨e, List.mem_append_right _ he, ho⟩

/-! ## One iteration of the main loop -/

theorem or_and_self_right (a k : Nat) : (a ||| k) &&& k = k := by
  apply Nat.eq_of_testBit_eq
  intro i
  simp only [Nat.testBit_and, Nat.testBit_or]
  cases a.testBit i <;> cases k.testBit i <;> rfl

theorem encodeFrame_calls {σ : Type} (L : Lib σ) (p : Int) (s : σ) :
    ∀ e ∈ (encodeFrame L p s).1, e.isLoopCall = true := by
  intro e he
  unfold encodeFrame at he
  simp only [] at he
  split_ifs at he <;> simp at he <;> rcases he with rfl | rfl | rfl <;> rfl

theorem encodeFrame_returned {σ : Type} (L : Lib σ) (p : Int) (s : σ) (st : Int)
    (h : (encodeFrame L p s).2 = .returned st) :
    st = 1 ∧ ∃ e ∈ (encodeFrame L p s).1, e.isCheckedFailure = true := by
  unfold encodeFrame at h ⊢
  simp only [] at h ⊢
  split_ifs at h ⊢ with h3 h4
  all_goals simp at h
  refine ⟨by omega, ?_⟩
  simp_all [Event.isCheckedFailure]

theorem encodeFrame_not_trapped {σ : Type} (L : Lib σ) (p : Int) (s : σ) :
    (encodeFrame L p s).2 ≠ .trapped := by
  unfold encodeFrame
  simp only []
  split_ifs <;> simp

theorem encodeFrame_next {σ : Type} (L : Lib σ) (p : Int) (s s1 : σ)
    (h : (encodeFrame L p s).2 = .next s1) :
    (∀ e ∈ (encodeFrame L p s).1, e.isCheckedFailure = false) ∧
      drawnFrames (encodeFrame L p s).1 = [] ∧ submittedPts (encodeFrame L p s).1 = [p] := by
  unfold encodeFrame at h ⊢
  simp only [] at h ⊢
  split_ifs at h ⊢ with h3 h4
  all_goals simp at h
  all_goals refine ⟨?_, ?_, ?_⟩
  all_goals
    simp_all [drawnFrames, submittedPts, Event.drawn, Event.submitted, Event.isCheckedFailure,
      List.filterMap_cons]

theorem encodeFrame_key {σ : Type} (L : Lib σ) (p : Int) (s : σ)
    (pkt : AVPacket) (ret : Int) (h : Event.writeFrame pkt ret ∈ (encodeFrame L p s).1) :
    pkt.flags &&& L.AV_PKT_FLAG_KEY = L.AV_PKT_FLAG_KEY := by
  unfold encodeFrame at h
  simp only [] at h
  split_ifs at h <;> simp at h
  rw [h.1]
  exact or_and_self_right _ _

theorem encodeFrame_shape {σ : Type} (L : Lib σ) (p : Int) (s s1 : σ)
    (h : (encodeFrame L p s).2 = .next s1) :
    ∃ ret rc pkt w, (encodeFrame L p s).1 =
      Event.sendFrame (some p) ret :: Event.receivePacket rc pkt ::
        (if rc = 0 then [Event.writeFrame ⟨pkt.pts, pkt.flags ||| L.AV_PKT_FLAG_KEY⟩ w]
          else []) := by
  unfold encodeFrame at h ⊢
  simp only [] at h ⊢
  split_ifs at h ⊢ with h3 h4
  all_goals simp at h
  · simp [h4]
    exact ⟨0, _, ⟨rfl, rfl⟩, _, by rw [if_pos rfl]⟩
  · simp [h4]

theorem frameBody_calls {σ : Type} (L : Lib σ) (r : Ready) (i : Int) (s : σ) :
    ∀ e ∈ (frameBody L r i s).1, e.isLoopCall = true := by
  intro e he
  unfold frameBody at he
  simp only [] at he
  split_ifs at he
  · simp at he
    rcases he with rfl | rfl <;> rfl
  · simp at he
    rcases he with rfl | rfl | rfl <;> rfl
  · cases hp : pts i r.time_base.den r.time_base.num r.fps with
    | none =>
      simp [hp] at he
      rcases he with rfl | rfl | rfl | rfl <;> rfl
    | some p =>
      simp [hp] at he
      rcases he with rfl | rfl | rfl | rfl | he
      · rfl
      · rfl
      · rfl
      · rfl
      · exact encodeFrame_calls L p _ e he

theorem frameBody_returned {σ : Type} (L : Lib σ) (r : Ready) (i : Int) (s : σ) (st : Int)
    (h : (frameBody L r i s).2 = .returned st) :
    st = 1 ∧ ∃ e ∈ (frameBody L r i s).1, e.isCheckedFailure = true := by
  unfold frameBody at h ⊢
  simp only [] at h ⊢
  split_ifs at h ⊢ with h1 h2
  · simp at h
    exact ⟨by omega, by simp_all [Event.isCheckedFailure]⟩
  · simp at h
    exact ⟨by omega, by simp_all [Event.isCheckedFailure]⟩
  · cases hp : pts i r.time_base.den r.time_base.num r.fps with
    | none => simp [hp] at h
    | some p =>
      simp only [hp] at h ⊢
      obtain ⟨h5, e, he, hc⟩ := encodeFrame_returned L p _ st h
      exact ⟨h5, e, List.mem_append_right _ he, hc⟩

theorem frameBody_trapped {σ : Type} (L : Lib σ) (r : Ready) (i : Int) (s : σ)
    (h : (frameBody L r i s).2 = .trapped) :
    pts i r.time_base.den r.time_base.num r.fps = none ∧
      ∀ e ∈ (frameBody L r i s).1, e.isCheckedFailure = false := by
  unfold frameBody at h ⊢
  simp only [] at h ⊢
  split_ifs at h ⊢ with h1 h2
  cases hp : pts i r.time_base.den r.time_base.num r.fps with
  | none =>
    simp only [hp]
    refine ⟨trivial, ?_⟩
    intro e he
    simp at he
    rcases he with rfl | rfl | rfl | rfl <;> simp_all [Event.isCheckedFailure]
  | some p =>
    simp only [hp] at h
    exact absurd h (encodeFrame_not_trapped L p _)

theorem frameBody_next {σ : Type} (L : Lib σ) (r : Ready) (i : Int) (s s1 : σ)
    (h : (frameBody L r i s).2 = .next s1) :
    (∀ e ∈ (frameBody L r i s).1, e.isCheckedFailure = false) ∧
      drawnFrames (frameBody L r i s).1 = [i] ∧
      (submittedPts (frameBody L r i s).1).map some =
        [pts i r.time_base.den r.time_base.num r.fps] := by
  unfold frameBody at h ⊢
  simp only [] at h ⊢
  split_ifs at h ⊢ with h1 h2
  cases hp : pts i r.time_base.den r.time_base.num r.fps with
  | none => simp [hp] at h
  | some p =>
    simp only [hp] at h ⊢
    obtain ⟨c1, c2, c3⟩ := encodeFrame_next L p _ s1 h
    refine ⟨?_, ?_, ?_⟩
    · intro e he
      rcases List.mem_append.mp he with he | he
      · simp at he
        rcases he with rfl | rfl | rfl | rfl <;> simp_all [Event.isCheckedFailure]
      · exact c1 e he
    · unfold drawnFrames at c2 ⊢
      rw [List.filterMap_append, c2]
      simp [Event.drawn, List.filterMap_cons]
    · unfold submittedPts at c3 ⊢
      rw [List.filterMap_append, c3]
      simp [Event.submitted, List.filterMap_cons]

theorem frameBody_key {σ : Type} (L : Lib σ) (r : Ready) (i : Int) (s : σ)
    (pkt : AVPacket) (ret : Int) (h : Event.writeFrame pkt ret ∈ (frameBody L r i s).1) :
    pkt.flags &&& L.AV_PKT_FLAG_KEY = L.AV_PKT_FLAG_KEY := by
  unfold frameBody at h
  simp only [] at h
  split_ifs at h
  · simp at h
  · simp at h
  · cases hp : pts i r.time_base.den r.time_base.num r.fps with
    | none => simp [hp] at h
    | some p =>
      simp [hp] at h
      exact encodeFrame_key L p _ pkt ret h

/-! ## The main loop -/

theorem mainLoopFrom_calls {σ : Type} (L : Lib σ) (r : Ready) (n : Int) :
    ∀ (k : Nat) (i : Int) (s : σ), ∀ e ∈ (mainLoopFrom L r n k i s).1, e.isLoopCall = true := by
  intro k
  induction k with
  | zero =>
    intro i s e he
    simp [mainLoopFrom] at he
  | succ k ih =>
    intro i s e he
    unfold mainLoopFrom at he
    split_ifs at he with hlt
    · cases hb : (frameBody L r i s).2 with
      | returned st =>
        simp only [hb] at he
        exact frameBody_calls L r i s e he
      | trapped =>
        simp only [hb] at he
        exact frameBody_calls L r i s e he
      | next s1 =>
        simp only [hb] at he
        rcases List.mem_append.mp he with h | h
        · exact frameBody_calls L r i s e h
        · exact ih _ _ e h
    · simp at he

theorem mainLoopFrom_returned {σ : Type} (L : Lib σ) (r : Ready) (n : Int) :
    ∀ (k : Nat) (i : Int) (s : σ) (st : Int), (mainLoopFrom L r n k i s).2 = .returned st →
      st = 1 ∧ ∃ e ∈ (mainLoopFrom L r n k i s).1, e.isCheckedFailure = true := by
  intro k
  induction k with
  | zero =>
    intro i s st h
    simp [mainLoopFrom] at h
  | succ k ih =>
    intro i s st h
    unfold mainLoopFrom at h ⊢
    split_ifs at h ⊢ with hlt
    cases hb : (frameBody L r i s).2 with
    | returned st1 =>
      simp only [hb] at h ⊢
      simp only [Flow.returned.injEq] at h
      subst h
      exact frameBody_returned L r i s st1 hb
    | trapped => simp [hb] at h
    | next s1 =>
      simp only [hb] at h ⊢
      obtain ⟨h1, e, he, hc⟩ := ih _ _ st h
      exact ⟨h1, e, List.mem_append_right _ he, hc⟩

theorem mainLoopFrom_trapped {σ : Type} (L : Lib σ) (r : Ready) (n : Int) :
    ∀ (k : Nat) (i : Int) (s : σ), (mainLoopFrom L r n k i s).2 = .trapped →
      (∀ e ∈ (mainLoopFrom L r n k i s).1, e.isCheckedFailure = false) ∧
      ∃ j : Int, i ≤ j ∧ j < n ∧ pts j r.time_base.den r.time_base.num r.fps = none := by
  intro k
  induction k with
  | zero =>
    intro i s h
    simp [mainLoopFrom] at h
  | succ k ih =>
    intro i s h
    unfold mainLoopFrom at h ⊢
    split_ifs at h ⊢ with hlt
    cases hb : (frameBody L r i s).2 with
    | returned st1 => simp [hb] at h
    | trapped =>
      simp only [hb]
      obtain ⟨hp, hc⟩ := frameBody_trapped L r i s hb
      exact ⟨hc, i, le_refl _, hlt, hp⟩
    | next s1 =>
      simp only [hb] at h ⊢
      obtain ⟨b1, _, _⟩ := frameBody_next L r i s s1 hb
      obtain ⟨c1, j, hj1, hj2, hj3⟩ := ih _ _ h
      refine ⟨?_, j, by omega, hj2, hj3⟩
      intro e he
      rcases List.mem_append.mp he with he | he
      · exact b1 e he
      · exact c1 e he

theorem mainLoopFrom_next {σ : Type} (L : Lib σ) (r : Ready) (n : Int) :
    ∀ (k : Nat) (i : Int) (s s1 : σ), k = (n - i).toNat →
      (mainLoopFrom L r n k i s).2 = .next s1 →
      (∀ e ∈ (mainLoopFrom L r n k i s).1, e.isCheckedFailure = false) ∧
      drawnFrames (mainLoopFrom L r n k i s).1 =
        (List.range k).map (fun (j : Nat) => i + (j : Int)) ∧
      (submittedPts (mainLoopFrom L r n k i s).1).map some =
        (List.range k).map
          (fun (j : Nat) => pts (i + (j : Int)) r.time_base.den r.time_base.num r.fps) := by
  intro k
  induction k with
  | zero =>
    intro i s s1 _ _
    simp [mainLoopFrom, drawnFrames, submittedPts]
  | succ k ih =>
    intro i s s1 hk h
    have hlt : i < n := by omega
    unfold mainLoopFrom at h ⊢
    simp only [hlt, if_true] at h ⊢
    cases hb : (frameBody L r i s).2 with
    | returned st1 => simp [hb] at h
    | trapped => simp [hb] at h
    | next s2 =>
      simp only [hb] at h ⊢
      obtain ⟨b1, b2, b3⟩ := frameBody_next L r i s s2 hb
      obtain ⟨c1, c2, c3⟩ := ih (i + 1) s2 s1 (by omega) h
      refine ⟨?_, ?_, ?_⟩
      · intro e he
        rcases List.mem_append.mp he with h | h
        · exact b1 e h
        · exact c1 e h
      · unfold drawnFrames at b2 c2 ⊢
        rw [List.filterMap_append, b2, c2, List.range_succ_eq_map]
        simp [Function.comp_def, add_assoc, add_comm]
        intro a _
        omega
      · unfold submittedPts at b3 c3 ⊢
        rw [List.filterMap_append, List.map_append, b3, c3, List.range_succ_eq_map]
        simp [Function.comp_def, add_assoc, add_comm]
        intro a _
        congr 1
        omega

theorem mainLoopFrom_key {σ : Type} (L : Lib σ) (r : Ready) (n : Int) :
    ∀ (k : Nat) (i : Int) (s : σ) (pkt : AVPacket) (ret : Int),
      Event.writeFrame pkt ret ∈ (mainLoopFrom L r n k i s).1 →
      pkt.flags &&& L.AV_PKT_FLAG_KEY = L.AV_PKT_FLAG_KEY := by
  intro k
  induction k with
  | zero =>
    intro i s pkt ret h
    simp [mainLoopFrom] at h
  | succ k ih =>
    intro i s pkt ret h
    unfold mainLoopFrom at h
    split_ifs at h with hlt
    · cases hb : (frameBody L r i s).2 with
      | returned st =>
        simp only [hb] at h
        exact frameBody_key L r i s pkt ret h
      | trapped =>
        simp only [hb] at h
        exact frameBody_key L r i s pkt ret h
      | next s1 =>
        simp only [hb] at h
        rcases List.mem_append.mp h with h | h
        · exact frameBody_key L r i s pkt ret h
        · exact ih _ _ pkt ret h
    · simp at h

/-! ## The flush loop and the shutdown -/

theorem flushLoop_calls {σ : Type} (L : Lib σ) :
    ∀ (fuel : Nat) (s : σ), ∀ e ∈ (flushLoop L fuel s).1, e.isFlushCall = true := by
  intro fuel
  induction fuel with
  | zero =>
    intro s e he
    simp [flushLoop] at he
  | succ fuel ih =>
    intro s e he
    unfold flushLoop at he
    simp only [] at he
    split_ifs at he
    · simp only [List.mem_cons] at he
      rcases he with rfl | rfl | rfl | he
      · rfl
      · rfl
      · rfl
      · exact ih _ e he
    · simp only [List.mem_cons, List.mem_singleton, List.not_mem_nil, or_false] at he
      rcases he with rfl | rfl <;> rfl

theorem flushLoop_starts {σ : Type} (L : Lib σ) (fuel : Nat) (s : σ) (h : 0 < fuel) :
    ∃ e ∈ (flushLoop L fuel s).1, e.isEndOfStream = true := by
  obtain ⟨k, rfl⟩ := Nat.exists_eq_succ_of_ne_zero (Nat.pos_iff_ne_zero.mp h)
  unfold flushLoop
  simp only []
  split_ifs
  · exact ⟨_, List.mem_cons_self _ _, rfl⟩
  · exact ⟨_, List.mem_cons_self _ _, rfl⟩

theorem flushLoop_drains {σ : Type} (L : Lib σ) (held : σ → Nat) (hY : YieldsOnePerDrain L held) :
    ∀ (fuel : Nat) (s : σ), held s < fuel →
      ∃ s1, (flushLoop L fuel s).2 = some s1 ∧
        ((flushLoop L fuel s).1.filter Event.isWrite).length = held s ∧
        ((flushLoop L fuel s).1.filter Event.isEndOfStream).length = held s + 1 ∧
        ((flushLoop L fuel s).1.filter Event.isDrain).length = held s + 1 := by
  intro fuel
  induction fuel with
  | zero =>
    intro s h
    omega
  | succ fuel ih =>
    intro s h
    unfold flushLoop
    simp only []
    by_cases h0 : held s = 0
    · have hne := hY.empty s h0
      simp only [hne, if_false]
      exact ⟨_, rfl, by simp [Event.isWrite, h0], by simp [Event.isEndOfStream, h0],
        by simp [Event.isDrain, h0]⟩
    · have hst := hY.step s (Nat.pos_of_ne_zero h0)
      simp only [hst.1, if_true]
      have hlt : held (L.av_interleaved_write_frame
          (L.avcodec_receive_packet (L.avcodec_send_frame none s).2).1.2
          (L.avcodec_receive_packet (L.avcodec_send_frame none s).2).2).2 < fuel := by omega
      obtain ⟨s1, e1, e2, e3, e4⟩ := ih _ hlt
      refine ⟨s1, e1, ?_, ?_, ?_⟩
      · simp [List.filter_cons, Event.isWrite, e2, hst.2]
      · simp [List.filter_cons, Event.isEndOfStream, e3, hst.2]
      · simp [List.filter_cons, Event.isDrain, e4, hst.2]

theorem flushLoop_written {σ : Type} (L : Lib σ) :
    ∀ (fuel : Nat) (s : σ), drainsWritten (flushLoop L fuel s).1 = true := by
  intro fuel
  induction fuel with
  | zero =>
    intro s
    rfl
  | succ fuel ih =>
    intro s
    unfold flushLoop
    simp only []
    split_ifs with h
    · simp [drainsWritten, ih]
    · simp [drainsWritten, h]

theorem shutdown_trace {σ : Type} (L : Lib σ) (o : AVOutputFormat) (s : σ) :
    (ownsSink L o = false ∧ (shutdown L o s).1 = [.writeTrailer (L.av_write_trailer s).1] ∧
        (shutdown L o s).2 = 0) ∨
      (ownsSink L o = true ∧
        (shutdown L o s).1 = [.writeTrailer (L.av_write_trailer s).1,
          .avioClose (L.avio_close (L.av_write_trailer s).2).1] ∧
        (shutdown L o s).2 = if (L.avio_close (L.av_write_trailer s).2).1 < 0 then 1 else 0) := by
  unfold shutdown
  by_cases h : ownsSink L o = true
  · right
    simp [h]
  · left
    simp [h]

/-! ## The whole run, phase by phase -/

theorem main_of_failed {σ : Type} (L : Lib σ) (inp : Input) (fuel : Nat) (s0 : σ) (st : Int)
    (h : (setup L inp s0).2 = .failed st) :
    main L inp fuel s0 = ((setup L inp s0).1, some (.status st)) := by
  unfold main
  simp only [h]

theorem main_of_returned {σ : Type} (L : Lib σ) (inp : Input) (fuel : Nat) (s0 : σ)
    (r : Ready) (s1 : σ) (st : Int) (h : (setup L inp s0).2 = .ready r s1)
    (hl : (mainLoop L r inp.duration s1).2 = .returned st) :
    main L inp fuel s0 =
      ((setup L inp s0).1 ++ (mainLoop L r inp.duration s1).1, some (.status st)) := by
  unfold main
  simp only [h, hl]

theorem main_of_trapped {σ : Type} (L : Lib σ) (inp : Input) (fuel : Nat) (s0 : σ)
    (r : Ready) (s1 : σ) (h : (setup L inp s0).2 = .ready r s1)
    (hl : (mainLoop L r inp.duration s1).2 = .trapped) :
    main L inp fuel s0 =
      ((setup L inp s0).1 ++ (mainLoop L r inp.duration s1).1, some .trapped) := by
  unfold main
  simp only [h, hl]

theorem main_of_running {σ : Type} (L : Lib σ) (inp : Input) (fuel : Nat) (s0 : σ)
    (r : Ready) (s1 s2 : σ) (h : (setup L inp s0).2 = .ready r s1)
    (hl : (mainLoop L r inp.duration s1).2 = .next s2) (hf : (flushLoop L fuel s2).2 = none) :
    main L inp fuel s0 =
      ((setup L inp s0).1 ++ (mainLoop L r inp.duration s1).1 ++ (flushLoop L fuel s2).1, none) := by
  unfold main
  simp only [h, hl, hf]

theorem main_of_done {σ : Type} (L : Lib σ) (inp : Input) (fuel : Nat) (s0 : σ)
    (r : Ready) (s1 s2 s3 : σ) (h : (setup L inp s0).2 = .ready r s1)
    (hl : (mainLoop L r inp.duration s1).2 = .next s2) (hf : (flushLoop L fuel s2).2 = some s3) :
    main L inp fuel s0 =
      ((setup L inp s0).1 ++ (mainLoop L r inp.duration s1).1 ++ (flushLoop L fuel s2).1 ++
          (shutdown L r.oformat s3).1,
        some (.status (shutdown L r.oformat s3).2)) := by
  unfold main
  simp only [h, hl, hf]

/-! ## Which phase can make which call -/

theorem setupCall_class (e : Event) (h : e.isSetupCall = true) :
    e.isCheckedFailure = false ∧ e.isFrameWork = false ∧ e.isTrailer = false ∧
      e.isClose = false ∧ e.isEndOfStream = false ∧ e.drawn = none ∧ e.submitted = none := by
  cases e <;> simp_all [Event.isSetupCall, Event.isCheckedFailure, Event.isFrameWork,
    Event.isTrailer, Event.isClose, Event.isEndOfStream, Event.drawn, Event.submitted]

theorem loopCall_class (e : Event) (h : e.isLoopCall = true) :
    e.isTrailer = false ∧ e.isClose = false ∧ e.isOpen = false ∧ e.isEndOfStream = false := by
  cases e with
  | sendFrame p ret => cases p <;> simp_all [Event.isLoopCall, Event.isTrailer, Event.isClose,
      Event.isOpen, Event.isEndOfStream]
  | _ => simp_all [Event.isLoopCall, Event.isTrailer, Event.isClose, Event.isOpen,
      Event.isEndOfStream]

theorem flushCall_class (e : Event) (h : e.isFlushCall = true) :
    e.isCheckedFailure = false ∧ e.isFrameWork = false ∧ e.isTrailer = false ∧
      e.isClose = false ∧ e.isOpen = false ∧ e.drawn = none ∧ e.submitted = none := by
  cases e with
  | sendFrame p ret => cases p <;> simp_all [Event.isFlushCall, Event.isCheckedFailure,
      Event.isFrameWork, Event.isTrailer, Event.isClose, Event.isOpen, Event.drawn,
      Event.submitted]
  | _ => simp_all [Event.isFlushCall, Event.isCheckedFailure, Event.isFrameWork,
      Event.isTrailer, Event.isClose, Event.isOpen, Event.drawn, Event.submitted]

theorem shutdown_class {σ : Type} (L : Lib σ) (o : AVOutputFormat) (s : σ) :
    ∀ e ∈ (shutdown L o s).1, e.isCheckedFailure = false ∧ e.isFrameWork = false ∧
      e.isOpen = false ∧ e.isEndOfStream = false ∧ e.drawn = none ∧ e.submitted = none := by
  intro e he
  rcases shutdown_trace L o s with ⟨_, ht, _⟩ | ⟨_, ht, _⟩
  · rw [ht] at he
    simp at he
    subst he
    simp [Event.isCheckedFailure, Event.isFrameWork, Event.isOpen, Event.isEndOfStream,
      Event.drawn, Event.submitted]
  · rw [ht] at he
    simp at he
    rcases he with rfl | rfl <;>
      simp [Event.isCheckedFailure, Event.isFrameWork, Event.isOpen, Event.isEndOfStream,
        Event.drawn, Event.submitted]

theorem filterMap_eq_nil_of {α β : Type} (f : α → Option β) (l : List α)
    (h : ∀ e ∈ l, f e = none) : l.filterMap f = [] := by
  induction l with
  | nil => rfl
  | cons a t ih =>
    rw [List.filterMap_cons, h a (List.mem_cons_self _ _)]
    exact ih (fun e he => h e (List.mem_cons_of_mem _ he))

/-! ## Timestamps -/

theorem pts_canonical (fps i : Int) (hfps : 0 < fps) (hi : 0 ≤ i) (hfit : i * fps < 2 ^ 31)
    (hf : fps < 2 ^ 31) : pts i fps 1 fps = some i := by
  rw [pts_of_range hi (le_of_lt hfps) (by omega) hfit (by omega)]
  rw [one_mul, Int.mul_ediv_cancel _ (ne_of_gt hfps)]

theorem pts_monotone (num den fps i j a b : Int) (hnum : 0 < num) (hden : 0 < den)
    (hfps : 0 < fps) (hi : 0 ≤ i) (hij : i ≤ j) (hfit : j * den < 2 ^ 31)
    (hfit2 : num * fps < 2 ^ 31) (ha : pts i den num fps = some a)
    (hb : pts j den num fps = some b) : a ≤ b := by
  have hnf : 0 < num * fps := Int.mul_pos hnum hfps
  have hle : i * den ≤ j * den := Int.mul_le_mul_of_nonneg_right hij (le_of_lt hden)
  rw [pts_of_range hi (le_of_lt hden) hnf (lt_of_le_of_lt hle hfit) hfit2] at ha
  rw [pts_of_range (le_trans hi hij) (le_of_lt hden) hnf hfit hfit2] at hb
  cases ha
  cases hb
  exact Int.ediv_le_ediv hnf hle

/-- C1, where the code departs from it: under the canonical time base {1, 60}
at 60 frames per second the timestamp of frame 35791394 is its index, but the
`int` product `i * den` of frame 35791395 leaves the range of `int`, and the
main loop submits that frame with timestamp -35791393 instead of 35791395. -/
theorem pts_canonical_overflow :
    pts 35791394 60 1 60 = some 35791394 ∧ pts 35791395 60 1 60 = some (-35791393) ∧
      Event.sendFrame (some (-35791393)) 0 ∈
        (frameBody (simLib plainCfg) ⟨⟨0⟩, ⟨1, 60⟩, true, 60⟩ 35791395 sim0).1 := by
  decide

/-- C2, where the code departs from it: with time base {1, 15360} at 30 frames
per second the timestamp of frame 139810 is 71582720, but the `int` product
`i * den` of frame 139811 leaves the range of `int`, and the main loop submits
that frame with the smaller timestamp -71582344. -/
theorem pts_monotone_overflow :
    pts 139810 15360 1 30 = some 71582720 ∧ pts 139811 15360 1 30 = some (-71582344) ∧
      Event.sendFrame (some (-71582344)) 0 ∈
        (frameBody (simLib plainCfg) ⟨⟨0⟩, ⟨1, 15360⟩, true, 30⟩ 139811 sim0).1 := by
  decide

/-! ## Frames produced by a run -/

theorem main_drawn_submitted {σ : Type} (L : Lib σ) (inp : Input) (fuel : Nat) (s0 : σ)
    (r : Ready) (s1 s2 : σ) (hs : (setup L inp s0).2 = .ready r s1)
    (hl : (mainLoop L r inp.duration s1).2 = .next s2) :
    drawnFrames (main L inp fuel s0).1 = drawnFrames (mainLoop L r inp.duration s1).1 ∧
      submittedPts (main L inp fuel s0).1 = submittedPts (mainLoop L r inp.duration s1).1 := by
  have hA1 : (setup L inp s0).1.filterMap Event.drawn = [] :=
    filterMap_eq_nil_of _ _ (fun e he => (setupCall_class e (setup_calls L inp s0 e he)).2.2.2.2.2.1)
  have hA2 : (setup L inp s0).1.filterMap Event.submitted = [] :=
    filterMap_eq_nil_of _ _ (fun e he => (setupCall_class e (setup_calls L inp s0 e he)).2.2.2.2.2.2)
  have hC1 : (flushLoop L fuel s2).1.filterMap Event.drawn = [] :=
    filterMap_eq_nil_of _ _
      (fun e he => (flushCall_class e (flushLoop_calls L fuel s2 e he)).2.2.2.2.2.1)
  have hC2 : (flushLoop L fuel s2).1.filterMap Event.submitted = [] :=
    filterMap_eq_nil_of _ _
      (fun e he => (flushCall_class e (flushLoop_calls L fuel s2 e he)).2.2.2.2.2.2)
  cases hf : (flushLoop L fuel s2).2 with
  | none =>
    rw [main_of_running L inp fuel s0 r s1 s2 hs hl hf]
    simp [drawnFrames, submittedPts, List.filterMap_append, hA1, hA2, hC1, hC2]
  | some s3 =>
    have hD1 : (shutdown L r.oformat s3).1.filterMap Event.drawn = [] :=
      filterMap_eq_nil_of _ _ (fun e he => (shutdown_class L _ s3 e he).2.2.2.2.1)
    have hD2 : (shutdown L r.oformat s3).1.filterMap Event.submitted = [] :=
      filterMap_eq_nil_of _ _ (fun e he => (shutdown_class L _ s3 e he).2.2.2.2.2)
    rw [main_of_done L inp fuel s0 r s1 s2 s3 hs hl hf]
    simp [drawnFrames, submittedPts, List.filterMap_append, hA1, hA2, hC1, hC2, hD1, hD2]

/-- C3: on a run whose setup succeeds, whose timestamp expression has a value
at every frame index (its division does not trap: the divisor
`time_base.num * fps` is not zero), and in which no tested stage of the main
loop fails, the frames drawn are exactly the indices 0, 1, ..., totalFrames-1
in this strictly increasing order, and exactly totalFrames frames are
submitted to the encoder, frame i with the timestamp `pts i`; the run is not
killed by a trap. -/
theorem all_frames_submitted {σ : Type} (L : Lib σ) (inp : Input) (fuel : Nat) (s0 : σ)
    (r : Ready) (s1 : σ) (hs : (setup L inp s0).2 = .ready r s1)
    (hdef : ∀ j : Nat, j < inp.duration.toNat →
      (pts (j : Int) r.time_base.den r.time_base.num r.fps).isSome = true)
    (hok : ∀ e ∈ (main L inp fuel s0).1, e.isCheckedFailure = false) :
    drawnFrames (main L inp fuel s0).1 =
        (List.range inp.duration.toNat).map (fun (j : Nat) => (j : Int)) ∧
      (submittedPts (main L inp fuel s0).1).map some =
        (List.range inp.duration.toNat).map
          (fun (j : Nat) => pts (j : Int) r.time_base.den r.time_base.num r.fps) ∧
      (submittedPts (main L inp fuel s0).1).length = inp.duration.toNat ∧
      (drawnFrames (main L inp fuel s0).1).Pairwise (fun a b => a < b) ∧
      (main L inp fuel s0).2 ≠ some .trapped := by
  cases hl : (mainLoop L r inp.duration s1).2 with
  | returned st =>
    exfalso
    obtain ⟨_, e, he, hc⟩ := mainLoopFrom_returned L r inp.duration _ _ _ st hl
    have hm := main_of_returned L inp fuel s0 r s1 st hs hl
    have := hok e (by rw [hm]; exact List.mem_append_right _ he)
    rw [this] at hc
    cases hc
  | trapped =>
    exfalso
    obtain ⟨_, j, hj0, hj1, hj2⟩ := mainLoopFrom_trapped L r inp.duration _ _ _ hl
    have := hdef j.toNat (by omega)
    rw [Int.toNat_of_nonneg hj0, hj2] at this
    cases this
  | next s2 =>
    obtain ⟨h1, h2⟩ := main_drawn_submitted L inp fuel s0 r s1 s2 hs hl
    obtain ⟨_, d, p⟩ := mainLoopFrom_next L r inp.duration _ 0 s1 s2 (by simp) hl
    have d1 : drawnFrames (main L inp fuel s0).1 =
        (List.range inp.duration.toNat).map (fun (j : Nat) => (j : Int)) := by
      rw [h1]
      unfold mainLoop
      rw [d]
      simp
    have p1 : (submittedPts (main L inp fuel s0).1).map some =
        (List.range inp.duration.toNat).map
          (fun (j : Nat) => pts (j : Int) r.time_base.den r.time_base.num r.fps) := by
      rw [h2]
      unfold mainLoop
      rw [p]
      simp
    refine ⟨d1, p1, ?_, ?_, ?_⟩
    · have := congrArg List.length p1
      simpa using this
    · rw [d1, List.pairwise_map]
      exact (List.pairwise_lt_range _).imp (fun h => by exact_mod_cast h)
    · cases hf : (flushLoop L fuel s2).2 with
      | none =>
        rw [main_of_running L inp fuel s0 r s1 s2 hs hl hf]
        simp
      | some s3 =>
        rw [main_of_done L inp fuel s0 r s1 s2 s3 hs hl hf]
        simp

set_option maxRecDepth 100000 in
theorem all_frames_submitted_witness :
    (setup (simLib plainCfg) ⟨30, 640, 360, 90⟩ sim0).2 = .ready ready30 sim0 ∧
      (∀ j : Nat, j < (90 : Int).toNat →
        (pts (j : Int) ready30.time_base.den ready30.time_base.num ready30.fps).isSome = true) ∧
      (∀ e ∈ (main (simLib plainCfg) ⟨30, 640, 360, 90⟩ 1 sim0).1, e.isCheckedFailure = false) ∧
      (submittedPts (main (simLib plainCfg) ⟨30, 640, 360, 90⟩ 1 sim0).1).length = 90 :=
  ⟨by decide, by decide, by decide,
    (all_frames_submitted (simLib plainCfg) ⟨30, 640, 360, 90⟩ 1 sim0 ready30 sim0
      (by decide) (by decide) (by decide)).2.2.1⟩

theorem zero_divisor_traps :
    main (simLib plainCfg) ⟨0, 640, 360, 2⟩ 1 sim0 =
      ([.guessFormat true, .allocOutputContext 0, .findEncoder true, .newStream true,
        .allocContext true, .openCodec 0, .avioOpen 0, .writeHeader 0, .frameGetBuffer 0,
        .swsGetContext true,
        .draw 0, .snapshot true, .peekPixels true, .swsScale true 0], some .trapped) := by
  decide

/-! ## Failures inside the main loop -/

/-- C4, as the claim states it, fails for the mux-write stage: in a one-frame
run where `av_interleaved_write_frame` returns -1 for the packet of frame 0,
the driver goes on to the flush, writes the trailer and returns 0. -/
theorem write_failure_ignored :
    main (simLib writeFailCfg) ⟨30, 640, 360, 1⟩ 1 sim0 =
      ([.guessFormat true, .allocOutputContext 0, .findEncoder true, .newStream true,
        .allocContext true, .openCodec 0, .avioOpen 0, .writeHeader 0, .frameGetBuffer 0,
        .swsGetContext true,
        .draw 0, .snapshot true, .peekPixels true, .swsScale true 0, .sendFrame (some 0) 0,
        .receivePacket 0 ⟨0, 0⟩, .writeFrame ⟨0, 1⟩ (-1),
        .sendFrame none 0, .receivePacket (-11) ⟨0, 0⟩,
        .writeTrailer 0, .avioClose 0], some (.status 0)) := by
  decide

/-- C4 (amended): if the read-back of the rendered surface (`makeImageSnapshot`
or `peekPixels`) or the submit (`avcodec_send_frame` of a frame) reports a
failure at some frame of the main loop, the run returns 1 and the trailer is
never written. -/
theorem checked_failure_aborts {σ : Type} (L : Lib σ) (inp : Input) (fuel : Nat) (s0 : σ)
    (h : ∃ e ∈ (main L inp fuel s0).1, e.isCheckedFailure = true) :
    (main L inp fuel s0).2 = some (.status 1) ∧
      ∀ e ∈ (main L inp fuel s0).1, e.isTrailer = false := by
  obtain ⟨e, he, hc⟩ := h
  have hA : ∀ x ∈ (setup L inp s0).1, x.isCheckedFailure = false ∧ x.isTrailer = false :=
    fun x hx => ⟨(setupCall_class x (setup_calls L inp s0 x hx)).1,
      (setupCall_class x (setup_calls L inp s0 x hx)).2.2.1⟩
  cases hs : (setup L inp s0).2 with
  | failed st =>
    rw [main_of_failed L inp fuel s0 st hs] at he ⊢
    rw [(hA e he).1] at hc
    cases hc
  | ready r s1 =>
    cases hl : (mainLoop L r inp.duration s1).2 with
    | returned st =>
      rw [main_of_returned L inp fuel s0 r s1 st hs hl]
      have h1 := (mainLoopFrom_returned L r inp.duration _ _ _ st hl).1
      subst h1
      refine ⟨rfl, ?_⟩
      intro x hx
      rcases List.mem_append.mp hx with hx | hx
      · exact (hA x hx).2
      · exact (loopCall_class x (mainLoopFrom_calls L r inp.duration _ _ _ x hx)).1
    | trapped =>
      exfalso
      have hB := (mainLoopFrom_trapped L r inp.duration _ _ _ hl).1
      rw [main_of_trapped L inp fuel s0 r s1 hs hl] at he
      rcases List.mem_append.mp he with he | he
      · rw [(hA e he).1] at hc
        cases hc
      · rw [hB e he] at hc
        cases hc
    | next s2 =>
      exfalso
      have hB := (mainLoopFrom_next L r inp.duration _ 0 s1 s2 (by simp) hl).1
      have hC : ∀ x ∈ (flushLoop L fuel s2).1, x.isCheckedFailure = false :=
        fun x hx => (flushCall_class x (flushLoop_calls L fuel s2 x hx)).1
      cases hf : (flushLoop L fuel s2).2 with
      | none =>
        rw [main_of_running L inp fuel s0 r s1 s2 hs hl hf] at he
        simp only [List.mem_append] at he
        rcases he with (he | he) | he
        · rw [(hA e he).1] at hc
          cases hc
        · rw [hB e he] at hc
          cases hc
        · rw [hC e he] at hc
          cases hc
      | some s3 =>
        rw [main_of_done L inp fuel s0 r s1 s2 s3 hs hl hf] at he
        simp only [List.mem_append] at he
        rcases he with ((he | he) | he) | he
        · rw [(hA e he).1] at hc
          cases hc
        · rw [hB e he] at hc
          cases hc
        · rw [hC e he] at hc
          cases hc
        · rw [(shutdown_class L _ s3 e he).1] at hc
          cases hc

theorem checked_failure_aborts_witness :
    (∃ e ∈ (main (simLib sendFailCfg) ⟨30, 640, 360, 3⟩ 1 sim0).1, e.isCheckedFailure = true) ∧
      (main (simLib sendFailCfg) ⟨30, 640, 360, 3⟩ 1 sim0).2 = some (.status 1) ∧
      ∀ e ∈ (main (simLib sendFailCfg) ⟨30, 640, 360, 3⟩ 1 sim0).1, e.isTrailer = false :=
  ⟨by decide, checked_failure_aborts (simLib sendFailCfg) ⟨30, 640, 360, 3⟩ 1 sim0 (by decide)⟩

/-! ## Keyframe flag -/

/-- C5: every packet the main loop hands to the muxer has the keyframe flag
set when it is written, whatever flags the encoder returned it with. -/
theorem main_loop_packets_key {σ : Type} (L : Lib σ) (r : Ready) (totalFrames : Int) (s : σ)
    (pkt : AVPacket) (ret : Int)
    (h : Event.writeFrame pkt ret ∈ (mainLoop L r totalFrames s).1) :
    pkt.flags &&& L.AV_PKT_FLAG_KEY = L.AV_PKT_FLAG_KEY :=
  mainLoopFrom_key L r totalFrames _ _ _ pkt ret h

theorem main_loop_packets_key_witness :
    Event.writeFrame ⟨1, 1⟩ 0 ∈ (mainLoop (simLib plainCfg) ready30 2 sim0).1 ∧
      (AVPacket.mk 1 1).flags &&& (simLib plainCfg).AV_PKT_FLAG_KEY =
        (simLib plainCfg).AV_PKT_FLAG_KEY :=
  ⟨by decide, main_loop_packets_key (simLib plainCfg) ready30 2 sim0 ⟨1, 1⟩ 0 (by decide)⟩

/-! ## Flush -/

theorem sim_yields (cfg : SimCfg) : YieldsOnePerDrain (simLib cfg) simHeld := by
  constructor
  · intro s h
    cases s with
    | mk c q e =>
      cases q with
      | nil => simp [simLib]
      | cons p rest => simp [simHeld] at h
  · intro s h
    cases s with
    | mk c q e =>
      cases q with
      | nil => simp [simHeld] at h
      | cons p rest => simp [simLib, simHeld]

theorem before_shutdown_class {σ : Type} (L : Lib σ) (inp : Input) (fuel : Nat) (s0 : σ)
    (r : Ready) (s1 s2 : σ) :
    ∀ e ∈ (setup L inp s0).1 ++ (mainLoop L r inp.duration s1).1 ++ (flushLoop L fuel s2).1,
      e.isTrailer = false ∧ e.isClose = false := by
  intro e he
  simp only [List.mem_append] at he
  rcases he with (he | he) | he
  · have := setupCall_class e (setup_calls L inp s0 e he)
    exact ⟨this.2.2.1, this.2.2.2.1⟩
  · have := loopCall_class e (mainLoopFrom_calls L r inp.duration _ _ _ e he)
    exact ⟨this.1, this.2.1⟩
  · have := flushCall_class e (flushLoop_calls L fuel s2 e he)
    exact ⟨this.2.2.1, this.2.2.2.1⟩

/-- C6: if the encoder holds N delayed packets when the main loop ends and
yields one per end-of-stream drain until it is empty, then with any fuel
above N the flush loop ends and the run returns; the flush sends the
end-of-stream marker and drains N + 1 times, writes exactly N packets (each
successful drain is immediately followed by the write of the packet it
returned), and the trailer is written after all of them (no trailer occurs
earlier in the trace, no packet is written after it). -/
theorem flush_drains_delayed {σ : Type} (L : Lib σ) (held : σ → Nat)
    (hY : YieldsOnePerDrain L held) (inp : Input) (fuel : Nat) (s0 : σ)
    (r : Ready) (s1 s2 : σ) (hs : (setup L inp s0).2 = .ready r s1)
    (hl : (mainLoop L r inp.duration s1).2 = .next s2) (hf : held s2 < fuel) :
    (main L inp fuel s0).2 ≠ none ∧
      ((flushLoop L fuel s2).1.filter Event.isWrite).length = held s2 ∧
      ((flushLoop L fuel s2).1.filter Event.isEndOfStream).length = held s2 + 1 ∧
      ((flushLoop L fuel s2).1.filter Event.isDrain).length = held s2 + 1 ∧
      drainsWritten (flushLoop L fuel s2).1 = true ∧
      (∀ e ∈ (setup L inp s0).1 ++ (mainLoop L r inp.duration s1).1 ++ (flushLoop L fuel s2).1,
        e.isTrailer = false) ∧
      ∃ t rest, (main L inp fuel s0).1 =
        (setup L inp s0).1 ++ (mainLoop L r inp.duration s1).1 ++ (flushLoop L fuel s2).1 ++
          Event.writeTrailer t :: rest ∧ ∀ e ∈ rest, e.isWrite = false := by
  obtain ⟨s3, e1, e2, e3, e4⟩ := flushLoop_drains L held hY fuel s2 hf
  have hm := main_of_done L inp fuel s0 r s1 s2 s3 hs hl e1
  refine ⟨by rw [hm]; simp, e2, e3, e4, flushLoop_written L fuel s2,
    fun e he => (before_shutdown_class L inp fuel s0 r s1 s2 e he).1, ?_⟩
  rcases shutdown_trace L r.oformat s3 with ⟨_, ht, _⟩ | ⟨_, ht, _⟩
  · exact ⟨_, [], by rw [hm, ht], by simp⟩
  · exact ⟨_, [_], by rw [hm, ht], by simp [Event.isWrite]⟩

theorem flush_drains_delayed_witness :
    (setup (simLib lagCfg) ⟨30, 640, 360, 5⟩ sim0).2 = .ready ready30 sim0 ∧
      (mainLoop (simLib lagCfg) ready30 5 sim0).2 = .next ⟨4, [⟨3, 0⟩, ⟨4, 0⟩], false⟩ ∧
      simHeld ⟨4, [⟨3, 0⟩, ⟨4, 0⟩], false⟩ < 3 ∧
      (main (simLib lagCfg) ⟨30, 640, 360, 5⟩ 3 sim0).2 ≠ none ∧
      ((flushLoop (simLib lagCfg) 3 ⟨4, [⟨3, 0⟩, ⟨4, 0⟩], false⟩).1.filter Event.isWrite).length =
        simHeld ⟨4, [⟨3, 0⟩, ⟨4, 0⟩], false⟩ :=
  ⟨by decide, by decide, by decide,
    (flush_drains_delayed (simLib lagCfg) simHeld (sim_yields lagCfg) ⟨30, 640, 360, 5⟩ 3 sim0
      ready30 sim0 ⟨4, [⟨3, 0⟩, ⟨4, 0⟩], false⟩ (by decide) (by decide) (by decide)).1,
    (flush_drains_delayed (simLib lagCfg) simHeld (sim_yields lagCfg) ⟨30, 640, 360, 5⟩ 3 sim0
      ready30 sim0 ⟨4, [⟨3, 0⟩, ⟨4, 0⟩], false⟩ (by decide) (by decide) (by decide)).2.1⟩

/-! ## Draining inside the main loop -/

/-- C7, as the claim states it, fails: with an encoder that makes two packets
ready per submitted frame, iteration 0 ends with a packet still ready (a
further drain would return it), and frame 1 is submitted after a single drain;
the leftover packet of frame 0 is what the drain of iteration 1 returns. -/
theorem single_drain_leaves_packet :
    (setup (simLib burstCfg) ⟨30, 640, 360, 2⟩ sim0).2 = .ready ready30 sim0 ∧
      (frameBody (simLib burstCfg) ready30 0 sim0).2 = .next ⟨0, [⟨0, 0⟩], false⟩ ∧
      ((simLib burstCfg).avcodec_receive_packet ⟨0, [⟨0, 0⟩], false⟩).1.1 = 0 ∧
      encoderCalls (mainLoop (simLib burstCfg) ready30 2 sim0).1 =
        [.sendFrame (some 0) 0, .receivePacket 0 ⟨0, 0⟩, .writeFrame ⟨0, 1⟩ 0,
          .sendFrame (some 1) 0, .receivePacket 0 ⟨0, 0⟩, .writeFrame ⟨0, 1⟩ 0] := by
  decide

/-- C7 (amended): in every iteration of the main loop that gets past the
submit, the encoder is drained exactly once after the frame is submitted; if
that drain returns a packet (code 0) the packet is written to the muxer, with
the keyframe flag set, before the iteration ends, otherwise nothing is
written; no further drain is made before the next frame is submitted. -/
theorem one_drain_per_frame {σ : Type} (L : Lib σ) (r : Ready) (i : Int) (s s1 : σ)
    (h : (frameBody L r i s).2 = .next s1) :
    ∃ p ret rc pkt w, pts i r.time_base.den r.time_base.num r.fps = some p ∧
      encoderCalls (frameBody L r i s).1 =
        Event.sendFrame (some p) ret :: Event.receivePacket rc pkt ::
          (if rc = 0 then [Event.writeFrame ⟨pkt.pts, pkt.flags ||| L.AV_PKT_FLAG_KEY⟩ w]
            else []) := by
  unfold frameBody at h ⊢
  simp only [] at h ⊢
  split_ifs at h ⊢ with h1 h2
  cases hp : pts i r.time_base.den r.time_base.num r.fps with
  | none => simp [hp] at h
  | some p =>
    simp only [hp] at h ⊢
    obtain ⟨ret, rc, pkt, w, hsh⟩ := encodeFrame_shape L p _ s1 h
    refine ⟨p, ret, rc, pkt, w, rfl, ?_⟩
    rw [hsh]
    by_cases hrc : rc = 0
    · simp [encoderCalls, List.filter_cons, Event.isSubmit, Event.isDrain, Event.isWrite, hrc]
    · simp [encoderCalls, List.filter_cons, Event.isSubmit, Event.isDrain, Event.isWrite, hrc]

theorem one_drain_per_frame_witness :
    (frameBody (simLib burstCfg) ready30 0 sim0).2 = .next ⟨0, [⟨0, 0⟩], false⟩ ∧
      ∃ p ret rc pkt w,
        pts 0 ready30.time_base.den ready30.time_base.num ready30.fps = some p ∧
        encoderCalls (frameBody (simLib burstCfg) ready30 0 sim0).1 =
          Event.sendFrame (some p) ret :: Event.receivePacket rc pkt ::
            (if rc = 0 then
              [Event.writeFrame ⟨pkt.pts, pkt.flags ||| (simLib burstCfg).AV_PKT_FLAG_KEY⟩ w]
              else []) :=
  ⟨by decide, one_drain_per_frame (simLib burstCfg) ready30 0 sim0 ⟨0, [⟨0, 0⟩], false⟩ (by decide)⟩

/-! ## Setup failures -/

theorem setup_failure_no_frames {σ : Type} (L : Lib σ) (inp : Input) (fuel : Nat) (s0 : σ)
    (st : Int) (h : (setup L inp s0).2 = .failed st) :
    (main L inp fuel s0).2 = some (.status 1) ∧
      ∀ e ∈ (main L inp fuel s0).1, e.isFrameWork = false := by
  rw [main_of_failed L inp fuel s0 st h, setup_status L inp s0 st h]
  exact ⟨rfl, fun e he => (setupCall_class e (setup_calls L inp s0 e he)).2.1⟩

/-- C8, the case the code misses: when every setup step succeeds except
`sws_getContext`, which returns null, the one-frame run does not stop before
the main loop; it draws and reads back frame 0, hands the null context to
`sws_scale`, submits the frame, writes the trailer and returns 0. -/
theorem rescale_context_unchecked :
    main (simLib noSwsCfg) ⟨30, 640, 360, 1⟩ 1 sim0 =
      ([.guessFormat true, .allocOutputContext 0, .findEncoder true, .newStream true,
        .allocContext true, .openCodec 0, .avioOpen 0, .writeHeader 0, .frameGetBuffer 0,
        .swsGetContext false,
        .draw 0, .snapshot true, .peekPixels true, .swsScale false (-1), .sendFrame (some 0) 0,
        .receivePacket 0 ⟨0, 0⟩, .writeFrame ⟨0, 1⟩ 0,
        .sendFrame none 0, .receivePacket (-11) ⟨0, 0⟩,
        .writeTrailer 0, .avioClose 0], some (.status 0)) := by
  decide

/-! ## Shutdown -/

theorem ownsSink_iff {σ : Type} (L : Lib σ) (o : AVOutputFormat) :
    ownsSink L o = true ↔ o.flags &&& L.AVFMT_NOFILE = 0 := by
  simp [ownsSink]

theorem filter_isOpen_nil (l : List Event) (h : ∀ e ∈ l, e.isOpen = false) :
    l.filter Event.isOpen = [] := by
  rw [List.filter_eq_nil_iff]
  intro e he
  simp [h e he]

theorem setupSink_opens {σ : Type} (L : Lib σ) (inp : Input) (o : AVOutputFormat) (s : σ)
    (r : Ready) (s1 : σ) (h : (setupSink L inp o s).2 = .ready r s1) :
    ((setupSink L inp o s).1.filter Event.isOpen).length = if ownsSink L o = true then 1 else 0 := by
  have hF : ∀ x, (setupFinish L inp o x).1.filter Event.isOpen = [] :=
    fun x => filter_isOpen_nil _ (fun e he => (setupFinish_calls L inp o x e he).2)
  by_cases h1 : ownsSink L o = true
  · by_cases h2 : (L.avio_open s).1 < 0
    · simp [setupSink, h1, h2] at h
    · simp only [setupSink, h1, h2, if_true, if_false]
      simp [List.filter_cons, Event.isOpen, hF]
  · simp only [setupSink, h1, if_false]
    simp [hF]

theorem setup_opens {σ : Type} (L : Lib σ) (inp : Input) (s0 : σ)
    (r : Ready) (s1 : σ) (h : (setup L inp s0).2 = .ready r s1) :
    ((setup L inp s0).1.filter Event.isOpen).length =
      if ownsSink L r.oformat = true then 1 else 0 := by
  unfold setup at h ⊢
  simp only [] at h ⊢
  cases hg : (L.av_guess_format s0).1 with
  | none => simp [hg] at h
  | some o =>
    simp only [hg] at h
    try simp only [hg]
    split_ifs at h ⊢
    all_goals try simp at h
    all_goals
      rename_i hown
      have hs := setupSink_ready L inp o _ r s1 h
      have ho := setupSink_opens L inp o _ r s1 h
      rw [hs.1] at hown
      simp only [List.filter_append, List.length_append, ho]
      simp [List.filter_cons, Event.isOpen, hown]

theorem open_only_if_owned {σ : Type} (L : Lib σ) (inp : Input) (fuel : Nat) (s0 : σ) :
    ∀ e ∈ (main L inp fuel s0).1, e.isOpen = true →
      ∃ o, (L.av_guess_format s0).1 = some o ∧ ownsSink L o = true := by
  intro e he ho
  have hA : ∀ x ∈ (setup L inp s0).1, x.isOpen = true →
      ∃ o, (L.av_guess_format s0).1 = some o ∧ ownsSink L o = true :=
    fun x hx hxo => setup_open L inp s0 x hx hxo
  cases hs : (setup L inp s0).2 with
  | failed st =>
    rw [main_of_failed L inp fuel s0 st hs] at he
    exact hA e he ho
  | ready r s1 =>
    have hB : ∀ x ∈ (mainLoop L r inp.duration s1).1, x.isOpen = false :=
      fun x hx => (loopCall_class x (mainLoopFrom_calls L r inp.duration _ _ _ x hx)).2.2.1
    cases hl : (mainLoop L r inp.duration s1).2 with
    | returned st =>
      rw [main_of_returned L inp fuel s0 r s1 st hs hl] at he
      rcases List.mem_append.mp he with he | he
      · exact hA e he ho
      · rw [hB e he] at ho
        cases ho
    | trapped =>
      rw [main_of_trapped L inp fuel s0 r s1 hs hl] at he
      rcases List.mem_append.mp he with he | he
      · exact hA e he ho
      · rw [hB e he] at ho
        cases ho
    | next s2 =>
      have hC : ∀ x ∈ (flushLoop L fuel s2).1, x.isOpen = false :=
        fun x hx => (flushCall_class x (flushLoop_calls L fuel s2 x hx)).2.2.2.2.1
      cases hf : (flushLoop L fuel s2).2 with
      | none =>
        rw [main_of_running L inp fuel s0 r s1 s2 hs hl hf] at he
        simp only [List.mem_append] at he
        rcases he with (he | he) | he
        · exact hA e he ho
        · rw [hB e he] at ho
          cases ho
        · rw [hC e he] at ho
          cases ho
      | some s3 =>
        rw [main_of_done L inp fuel s0 r s1 s2 s3 hs hl hf] at he
        simp only [List.mem_append] at he
        rcases he with ((he | he) | he) | he
        · exact hA e he ho
        · rw [hB e he] at ho
          cases ho
        · rw [hC e he] at ho
          cases ho
        · rw [(shutdown_class L _ s3 e he).2.2.1] at ho
          cases ho

/-- C9: at shutdown the trailer is written first and the sink is closed
afterwards, and it is closed exactly when the driver opened it, which is when
the format lacks the no-file flag.  In every run, either no trailer is written
and nothing is closed, or the trace ends with the trailer followed, iff the
driver opened the sink earlier, by the close.  The driver opens the sink only
for a format without the no-file flag; for a format with the flag the sink is
neither opened nor closed in any run.  A run whose setup and main loop succeed
and whose encoder ends its output within the fuel does reach the shutdown:
for a format without the flag the sink was opened exactly once and the trace
ends with the trailer then the close (status 1 iff the close fails); for a
format with the flag the trace ends with the trailer alone and the status
is 0. -/
theorem trailer_then_close {σ : Type} (L : Lib σ) (inp : Input) (fuel : Nat) (s0 : σ) :
    ((∀ e ∈ (main L inp fuel s0).1, e.isTrailer = false ∧ e.isClose = false) ∨
      ∃ P t, (∀ e ∈ P, e.isTrailer = false ∧ e.isClose = false) ∧
        (((main L inp fuel s0).1 = P ++ [.writeTrailer t] ∧ ∀ e ∈ P, e.isOpen = false) ∨
          ∃ c, (main L inp fuel s0).1 = P ++ [.writeTrailer t, .avioClose c] ∧
            ∃ e ∈ P, e.isOpen = true)) ∧
      (∀ e ∈ (main L inp fuel s0).1, e.isOpen = true →
        ∃ o, (L.av_guess_format s0).1 = some o ∧ o.flags &&& L.AVFMT_NOFILE = 0) ∧
      (∀ o, (L.av_guess_format s0).1 = some o → o.flags &&& L.AVFMT_NOFILE ≠ 0 →
        ∀ e ∈ (main L inp fuel s0).1, e.isOpen = false ∧ e.isClose = false) ∧
      (∀ (held : σ → Nat) (r : Ready) (s1 s2 : σ), YieldsOnePerDrain L held →
        (setup L inp s0).2 = .ready r s1 → (mainLoop L r inp.duration s1).2 = .next s2 →
        held s2 < fuel →
        ∃ s3, (flushLoop L fuel s2).2 = some s3 ∧
          (∀ e ∈ beforeShutdown L inp fuel s0 r s1 s2, e.isTrailer = false ∧ e.isClose = false) ∧
          (L.av_guess_format s0).1 = some r.oformat ∧
          ((r.oformat.flags &&& L.AVFMT_NOFILE = 0 ∧
              ((beforeShutdown L inp fuel s0 r s1 s2).filter Event.isOpen).length = 1 ∧
              main L inp fuel s0 =
                (beforeShutdown L inp fuel s0 r s1 s2 ++
                    [.writeTrailer (L.av_write_trailer s3).1,
                      .avioClose (L.avio_close (L.av_write_trailer s3).2).1],
                  some (.status
                    (if (L.avio_close (L.av_write_trailer s3).2).1 < 0 then 1 else 0)))) ∨
            (r.oformat.flags &&& L.AVFMT_NOFILE ≠ 0 ∧
              (∀ e ∈ beforeShutdown L inp fuel s0 r s1 s2, e.isOpen = false) ∧
              main L inp fuel s0 =
                (beforeShutdown L inp fuel s0 r s1 s2 ++
                    [.writeTrailer (L.av_write_trailer s3).1],
                  some (.status 0))))) := by
  have hopen := open_only_if_owned L inp fuel s0
  have hopen1 : ∀ e ∈ (main L inp fuel s0).1, e.isOpen = true →
      ∃ o, (L.av_guess_format s0).1 = some o ∧ o.flags &&& L.AVFMT_NOFILE = 0 := by
    intro e he ho
    obtain ⟨o, hg, hown⟩ := hopen e he ho
    exact ⟨o, hg, (ownsSink_iff L o).mp hown⟩
  have hfirst : (∀ e ∈ (main L inp fuel s0).1, e.isTrailer = false ∧ e.isClose = false) ∨
      ∃ P t, (∀ e ∈ P, e.isTrailer = false ∧ e.isClose = false) ∧
        (((main L inp fuel s0).1 = P ++ [.writeTrailer t] ∧ ∀ e ∈ P, e.isOpen = false) ∨
          ∃ c, (main L inp fuel s0).1 = P ++ [.writeTrailer t, .avioClose c] ∧
            ∃ e ∈ P, e.isOpen = true) := by
    cases hs : (setup L inp s0).2 with
    | failed st =>
      left
      rw [main_of_failed L inp fuel s0 st hs]
      intro e he
      have := setupCall_class e (setup_calls L inp s0 e he)
      exact ⟨this.2.2.1, this.2.2.2.1⟩
    | ready r s1 =>
      cases hl : (mainLoop L r inp.duration s1).2 with
      | returned st =>
        left
        rw [main_of_returned L inp fuel s0 r s1 st hs hl]
        intro e he
        exact before_shutdown_class L inp 0 s0 r s1 s1 e (by simpa [flushLoop] using he)
      | trapped =>
        left
        rw [main_of_trapped L inp fuel s0 r s1 hs hl]
        intro e he
        exact before_shutdown_class L inp 0 s0 r s1 s1 e (by simpa [flushLoop] using he)
      | next s2 =>
        cases hf : (flushLoop L fuel s2).2 with
        | none =>
          left
          rw [main_of_running L inp fuel s0 r s1 s2 hs hl hf]
          exact before_shutdown_class L inp fuel s0 r s1 s2
        | some s3 =>
          right
          have hm := main_of_done L inp fuel s0 r s1 s2 s3 hs hl hf
          have hr := setup_ready L inp s0 r s1 hs
          refine ⟨_, (L.av_write_trailer s3).1, before_shutdown_class L inp fuel s0 r s1 s2, ?_⟩
          rcases shutdown_trace L r.oformat s3 with ⟨ho, ht, _⟩ | ⟨ho, ht, _⟩
          · left
            refine ⟨by rw [hm, ht], ?_⟩
            intro e he
            by_contra hne
            have hmem : e ∈ (main L inp fuel s0).1 := by
              rw [hm]
              exact List.mem_append_left _ he
            obtain ⟨o, hg, hown⟩ := hopen e hmem (by simpa using hne)
            rw [hr.1] at hg
            cases hg
            rw [ho] at hown
            cases hown
          · right
            refine ⟨_, by rw [hm, ht], ?_⟩
            obtain ⟨e, he, heo⟩ := hr.2.2 ho
            exact ⟨e, List.mem_append_left _ (List.mem_append_left _ he), heo⟩
  refine ⟨hfirst, hopen1, ?_, ?_⟩
  · intro o hg hown e he
    have hno : e.isOpen = false := by
      by_contra hne
      obtain ⟨o1, hg1, hown1⟩ := hopen1 e he (by simpa using hne)
      rw [hg] at hg1
      cases hg1
      exact hown hown1
    refine ⟨hno, ?_⟩
    rcases hfirst with h | ⟨P, t, hP, h | ⟨c, htr, x, hx, hxo⟩⟩
    · exact (h e he).2
    · rw [h.1] at he
      rcases List.mem_append.mp he with he | he
      · exact (hP e he).2
      · simp at he
        subst he
        rfl
    · exfalso
      have hmem : x ∈ (main L inp fuel s0).1 := by
        rw [htr]
        exact List.mem_append_left _ hx
      obtain ⟨o1, hg1, hown1⟩ := hopen1 x hmem hxo
      rw [hg] at hg1
      cases hg1
      exact hown hown1
  · intro held r s1 s2 hY hs hl hf
    obtain ⟨s3, e1, _, _, _⟩ := flushLoop_drains L held hY fuel s2 hf
    have hm := main_of_done L inp fuel s0 r s1 s2 s3 hs hl e1
    have hr := setup_ready L inp s0 r s1 hs
    have hso := setup_opens L inp s0 r s1 hs
    have hB : (mainLoop L r inp.duration s1).1.filter Event.isOpen = [] :=
      filter_isOpen_nil _
        (fun x hx => (loopCall_class x (mainLoopFrom_calls L r inp.duration _ _ _ x hx)).2.2.1)
    have hC : (flushLoop L fuel s2).1.filter Event.isOpen = [] :=
      filter_isOpen_nil _
        (fun x hx => (flushCall_class x (flushLoop_calls L fuel s2 x hx)).2.2.2.2.1)
    refine ⟨s3, e1, before_shutdown_class L inp fuel s0 r s1 s2, hr.1, ?_⟩
    rcases shutdown_trace L r.oformat s3 with ⟨ho, ht, hst⟩ | ⟨ho, ht, hst⟩
    · right
      have hflag : r.oformat.flags &&& L.AVFMT_NOFILE ≠ 0 := by
        intro hz
        rw [(ownsSink_iff L r.oformat).mpr hz] at ho
        cases ho
      refine ⟨hflag, ?_, ?_⟩
      · intro e he
        by_contra hne
        have hmem : e ∈ (main L inp fuel s0).1 := by
          rw [hm]
          exact List.mem_append_left _ he
        obtain ⟨o, hg, hown⟩ := hopen1 e hmem (by simpa using hne)
        rw [hr.1] at hg
        cases hg
        exact hflag hown
      · rw [hm, ht, hst]
        rfl
    · left
      refine ⟨(ownsSink_iff L r.oformat).mp ho, ?_, ?_⟩
      · unfold beforeShutdown
        rw [List.filter_append, List.filter_append, hB, hC]
        simp [hso, ho]
      · rw [hm, ht, hst]
        rfl

theorem trailer_then_close_witness :
    YieldsOnePerDrain (simLib plainCfg) simHeld ∧
      (setup (simLib plainCfg) ⟨30, 640, 360, 2⟩ sim0).2 = .ready ready30 sim0 ∧
      (mainLoop (simLib plainCfg) ready30 2 sim0).2 = .next ⟨1, [], false⟩ ∧
      simHeld ⟨1, [], false⟩ < 1 ∧
      ∃ s3, (flushLoop (simLib plainCfg) 1 ⟨1, [], false⟩).2 = some s3 ∧
        (∀ e ∈ beforeShutdown (simLib plainCfg) ⟨30, 640, 360, 2⟩ 1 sim0 ready30 sim0
            ⟨1, [], false⟩, e.isTrailer = false ∧ e.isClose = false) ∧
        ((simLib plainCfg).av_guess_format sim0).1 = some ready30.oformat ∧
        ((ready30.oformat.flags &&& (simLib plainCfg).AVFMT_NOFILE = 0 ∧
            ((beforeShutdown (simLib plainCfg) ⟨30, 640, 360, 2⟩ 1 sim0 ready30 sim0
              ⟨1, [], false⟩).filter Event.isOpen).length = 1 ∧
            main (simLib plainCfg) ⟨30, 640, 360, 2⟩ 1 sim0 =
              (beforeShutdown (simLib plainCfg) ⟨30, 640, 360, 2⟩ 1 sim0 ready30 sim0
                  ⟨1, [], false⟩ ++
                  [.writeTrailer ((simLib plainCfg).av_write_trailer s3).1,
                    .avioClose ((simLib plainCfg).avio_close
                      ((simLib plainCfg).av_write_trailer s3).2).1],
                some (.status
                  (if ((simLib plainCfg).avio_close
                      ((simLib plainCfg).av_write_trailer s3).2).1 < 0 then 1 else 0)))) ∨
          (ready30.oformat.flags &&& (simLib plainCfg).AVFMT_NOFILE ≠ 0 ∧
            (∀ e ∈ beforeShutdown (simLib plainCfg) ⟨30, 640, 360, 2⟩ 1 sim0 ready30 sim0
                ⟨1, [], false⟩, e.isOpen = false) ∧
            main (simLib plainCfg) ⟨30, 640, 360, 2⟩ 1 sim0 =
              (beforeShutdown (simLib plainCfg) ⟨30, 640, 360, 2⟩ 1 sim0 ready30 sim0
                  ⟨1, [], false⟩ ++
                  [.writeTrailer ((simLib plainCfg).av_write_trailer s3).1],
                some (.status 0)))) :=
  ⟨sim_yields plainCfg, by decide, by decide, by decide,
    (trailer_then_close (simLib plainCfg) ⟨30, 640, 360, 2⟩ 1 sim0).2.2.2 simHeld ready30 sim0
      ⟨1, [], false⟩ (sim_yields plainCfg) (by decide) (by decide) (by decide)⟩

/-! ## Zero frames -/

/-- C10: when the animation's duration is zero or negative and setup succeeds,
no frame is drawn, read back, converted or submitted; the flush loop still
runs (the end-of-stream marker is sent); and, the encoder reporting the end of
its output after finitely many drains (it holds fewer packets than `fuel`),
the trailer is written, the run returns, and it returns 0 whenever the sink
closes without error. -/
theorem zero_frames_finalized {σ : Type} (L : Lib σ) (held : σ → Nat)
    (hY : YieldsOnePerDrain L held) (inp : Input) (fuel : Nat) (s0 : σ)
    (r : Ready) (s1 : σ) (hs : (setup L inp s0).2 = .ready r s1)
    (hd : inp.duration ≤ 0) (hf : held s1 < fuel) :
    (∀ e ∈ (main L inp fuel s0).1, e.isFrameWork = false) ∧
      (∃ e ∈ (main L inp fuel s0).1, e.isEndOfStream = true) ∧
      (∃ t, Event.writeTrailer t ∈ (main L inp fuel s0).1) ∧
      (main L inp fuel s0).2 ≠ none ∧
      ((∀ c, Event.avioClose c ∈ (main L inp fuel s0).1 → 0 ≤ c) →
        (main L inp fuel s0).2 = some (.status 0)) := by
  have hz : inp.duration.toNat = 0 := by omega
  have hloop : mainLoop L r inp.duration s1 = ([], .next s1) := by
    unfold mainLoop
    rw [hz]
    rfl
  have hl : (mainLoop L r inp.duration s1).2 = .next s1 := by rw [hloop]
  obtain ⟨s3, e1, _, _, _⟩ := flushLoop_drains L held hY fuel s1 hf
  have hm := main_of_done L inp fuel s0 r s1 s1 s3 hs hl e1
  rw [hloop] at hm
  simp only [List.append_nil] at hm
  obtain ⟨x, hx, hxe⟩ := flushLoop_starts L fuel s1 (by omega)
  refine ⟨?_, ?_, ?_, ?_, ?_⟩
  · intro e he
    rw [hm] at he
    simp only [List.mem_append] at he
    rcases he with (he | he) | he
    · exact (setupCall_class e (setup_calls L inp s0 e he)).2.1
    · exact (flushCall_class e (flushLoop_calls L fuel s1 e he)).2.1
    · exact (shutdown_class L _ s3 e he).2.1
  · rw [hm]
    exact ⟨x, List.mem_append_left _ (List.mem_append_right _ hx), hxe⟩
  · rw [hm]
    rcases shutdown_trace L r.oformat s3 with ⟨_, ht, _⟩ | ⟨_, ht, _⟩
    · exact ⟨_, List.mem_append_right _ (by rw [ht]; exact List.mem_cons_self _ _)⟩
    · exact ⟨_, List.mem_append_right _ (by rw [ht]; exact List.mem_cons_self _ _)⟩
  · rw [hm]
    simp
  · intro hc
    rw [hm] at hc ⊢
    rcases shutdown_trace L r.oformat s3 with ⟨_, _, hst⟩ | ⟨_, ht, hst⟩
    · simp [hst]
    · have := hc (L.avio_close (L.av_write_trailer s3).2).1
        (List.mem_append_right _ (by rw [ht]; simp))
      simp only [hst]
      rw [if_neg (by omega)]

theorem zero_frames_finalized_witness :
    (setup (simLib plainCfg) ⟨30, 640, 360, 0⟩ sim0).2 = .ready ready30 sim0 ∧
      (0 : Int) ≤ 0 ∧ simHeld sim0 < 1 ∧
      (∀ c, Event.avioClose c ∈ (main (simLib plainCfg) ⟨30, 640, 360, 0⟩ 1 sim0).1 → 0 ≤ c) ∧
      (main (simLib plainCfg) ⟨30, 640, 360, 0⟩ 1 sim0).2 = some (.status 0) :=
  ⟨by decide, by decide, by decide, by simp [main, setup, setupSink, setupFinish, mainLoop,
      mainLoopFrom, flushLoop, shutdown, ownsSink, simLib, plainCfg, sim0],
    (zero_frames_finalized (simLib plainCfg) simHeld (sim_yields plainCfg) ⟨30, 640, 360, 0⟩ 1
      sim0 ready30 sim0 (by decide) (by decide) (by decide)).2.2.2.2
      (by simp [main, setup, setupSink, setupFinish, mainLoop, mainLoopFrom, flushLoop,
        shutdown, ownsSink, simLib, plainCfg, sim0])⟩

end Recorder
